import Mathlib

/-!
Shallow embedding of the scoring and standings engine of the darts-league
application (src/src/App.tsx): data model, points engine, season aggregator,
win-streak computation, head-to-head matrix, podium computation, bracket
recalculation and pool seeding, together with theorems settling the frozen
claims about them.

Conventions of the embedding:
* JavaScript strings are Lean `String`s; `normName` models
  `(s ?? "").toString().trim()`.
* JavaScript `Map<string, number>` accumulators read through `get(k) ?? 0`
  are modelled as total functions `String → Int` defaulting to `0`; the
  `add` helper that skips falsy keys becomes `mapAdd`, which leaves the
  map unchanged on the empty-string key.
* `Array.prototype.sort` (stable since ES2019) is modelled by
  `List.insertionSort`, which is stable; `localeCompare` on names is
  modelled by the code-point lexicographic order `nameLe` (a
  deterministic total order, per the spec's Design Notes).
* Numeric fields that the modelled computations only compare and add
  (`order`, `createdAt`) are `Nat`; soirée numbers and point values are
  `Int`.  Money fields (`jackpotPerPlayerEUR`, `rebuyEUR`, podium euros)
  and display-only fields (`format`, `bo`, `maxTurns`, date labels) are
  not read by any computation a claim is about and are omitted.
-/

namespace Darts

/-- Whitespace trimming on both ends, the model of JavaScript
`String.prototype.trim` used by `normName`. -/
def trimStr (s : String) : String :=
  ⟨((s.data.dropWhile Char.isWhitespace).reverse.dropWhile Char.isWhitespace).reverse⟩

/-- Embedding of `normName(s) = (s ?? "").toString().trim()`. -/
def normName (s : String) : String := trimStr s

/-- Match phase, `type Phase = "POULE" | "DEMI" | "PFINAL" | "FINAL"`. -/
inductive Phase
  | POULE
  | DEMI
  | PFINAL
  | FINAL
deriving DecidableEq, Repr, Inhabited

/-- Match status, `type MatchStatus = "PENDING" | "VALIDATED" | "CONTESTED"`. -/
inductive MatchStatus
  | PENDING
  | VALIDATED
  | CONTESTED
deriving DecidableEq, Repr, Inhabited

/-- Pool identifier `"A" | "B"`. -/
inductive PoolId
  | A
  | B
deriving DecidableEq, Repr, Inhabited

/-- The point-valued fields of `RulesConfig` that the points engine reads. -/
structure RulesConfig where
  winPoints : Int
  smallFinalPoints : Int
  checkoutBonusPoints : Int
  rebuyWinPointsS1S2 : Int
  rebuyFirstWinPointsS3Plus : Int
  rebuyNextWinPointsS3Plus : Int
deriving DecidableEq, Repr, Inhabited

/-- The `STANDARD_RULES` constant (its point-valued fields). -/
def STANDARD_RULES : RulesConfig :=
  { winPoints := 2
    smallFinalPoints := 1
    checkoutBonusPoints := 1
    rebuyWinPointsS1S2 := 2
    rebuyFirstWinPointsS3Plus := 2
    rebuyNextWinPointsS3Plus := 1 }

/-- `type CoreMatch` (fields read by the modelled computations). -/
structure CoreMatch where
  id : String
  order : Nat
  phase : Phase
  status : MatchStatus
  pool : Option PoolId
  a : String
  b : String
  winner : String
  checkout100 : Bool
deriving DecidableEq, Repr, Inhabited

/-- `type RebuyMatch`. -/
structure RebuyMatch where
  id : String
  buyer : String
  a : String
  b : String
  winner : String
  createdAt : Nat
deriving DecidableEq, Repr, Inhabited

/-- A soirée's two pools. -/
structure Pools where
  A : List String
  B : List String
deriving DecidableEq, Repr, Inhabited

/-- `type Soiree` (fields read by the modelled computations).  The source
field `matches` is spelled `matchList` because `matches` is a Lean keyword. -/
structure Soiree where
  id : String
  number : Int
  pools : Pools
  matchList : List CoreMatch
  rebuys : List RebuyMatch
deriving DecidableEq, Repr, Inhabited

/-- `type Season` (fields read by the modelled computations). -/
structure Season where
  players : List String
  soirees : List Soiree
deriving DecidableEq, Repr, Inhabited

/-- The three accumulator maps of the points engine, as total functions
defaulting to `0` (the model of `map.get(k) ?? 0`). -/
structure PtsMaps where
  pts : String → Int
  wins : String → Int
  bonus : String → Int

/-- The all-zero accumulator state. -/
def PtsMaps.zero : PtsMaps := ⟨fun _ => 0, fun _ => 0, fun _ => 0⟩

/-- The `add` helper of the points engine:
`if (!key) return; map.set(key, (map.get(key) ?? 0) + delta)`. -/
def mapAdd (f : String → Int) (key : String) (delta : Int) : String → Int :=
  if key = "" then f else fun x => if x = key then f x + delta else f x

/-- One iteration of the match loop of `computePointsFromMatches`:
skip undecided matches, award base points (`smallFinalPoints` for the
small final, `winPoints` otherwise) and a win to the winner, and on
`checkout100` additionally a bonus count and `checkoutBonusPoints`. -/
def applyMatch (rules : RulesConfig) (st : PtsMaps) (m : CoreMatch) : PtsMaps :=
  let w := normName m.winner
  if w = "" then st
  else
    let basePts := if m.phase = Phase.PFINAL then rules.smallFinalPoints else rules.winPoints
    let pts1 := mapAdd st.pts w basePts
    let wins1 := mapAdd st.wins w 1
    if m.checkout100 then
      { pts := mapAdd pts1 w rules.checkoutBonusPoints
        wins := wins1
        bonus := mapAdd st.bonus w 1 }
    else
      { pts := pts1, wins := wins1, bonus := st.bonus }

/-- A rebuy with a non-empty (trimmed) buyer and winner — the rebuys the
engine counts as completed. -/
def decidedRebuy (rb : RebuyMatch) : Prop :=
  normName rb.buyer ≠ "" ∧ normName rb.winner ≠ ""

instance : DecidablePred decidedRebuy := fun rb =>
  decidable_of_iff (normName rb.buyer ≠ "" ∧ normName rb.winner ≠ "") Iff.rfl

/-- The `priorCompleted` map of `computePointsFromMatches`: for
`soN ≥ 3` and a present season, the number of the buyer's decided rebuys
in soirées of strictly smaller number.  The source sorts the soirées by
ascending `number` and breaks at the first soirée with `number ≥ soN`;
on the sorted list that processes exactly the soirées with
`number < soN`, and the per-buyer count is order-independent, so it is
embedded as a filter. -/
def priorCompletedCount (soN : Int) (season : Option Season) (buyer : String) : Nat :=
  match season with
  | none => 0
  | some se =>
      if 3 ≤ soN then
        (((se.soirees.filter (fun s => s.number < soN)).flatMap Soiree.rebuys).filter
          (fun rb => decidedRebuy rb ∧ normName rb.buyer = buyer)).length
      else 0

/-- State of the rebuy loop: the accumulators plus the `localCompleted`
count of decided rebuys already processed in this call. -/
structure RebuyState where
  maps : PtsMaps
  localCompleted : String → Nat

/-- `incLocalDone`: bump the buyer's local completed-rebuy count. -/
def incLocal (f : String → Nat) (buyer : String) : String → Nat :=
  fun x => if x = buyer then f x + 1 else f x

/-- One iteration of the rebuy loop of `computePointsFromMatches`. -/
def rebuyStep (rules : RulesConfig) (soN : Int) (prior : String → Nat)
    (st : RebuyState) (r : RebuyMatch) : RebuyState :=
  let buyer := normName r.buyer
  let w := normName r.winner
  if buyer = "" ∨ w = "" then st
  else if 0 < soN ∧ soN ≤ 2 then
    let maps :=
      if w = buyer then
        { st.maps with
            pts := mapAdd st.maps.pts buyer rules.rebuyWinPointsS1S2
            wins := mapAdd st.maps.wins buyer 1 }
      else st.maps
    { maps := maps, localCompleted := incLocal st.localCompleted buyer }
  else
    let winPts :=
      if 3 ≤ soN then
        if prior buyer + st.localCompleted buyer = 0 then rules.rebuyFirstWinPointsS3Plus
        else rules.rebuyNextWinPointsS3Plus
      else rules.rebuyWinPointsS1S2
    let maps :=
      if w = buyer then
        { st.maps with
            pts := mapAdd st.maps.pts buyer winPts
            wins := mapAdd st.maps.wins buyer 1 }
      else st.maps
    { maps := maps, localCompleted := incLocal st.localCompleted buyer }

/-- The rebuy list sorted by ascending `createdAt` (stably), the model of
`[...rebuyMatches].sort((a, b) => (a.createdAt ?? 0) - (b.createdAt ?? 0))`. -/
def sortedRebuys (rebuys : List RebuyMatch) : List RebuyMatch :=
  List.insertionSort (fun x y => x.createdAt ≤ y.createdAt) rebuys

/-- Embedding of `computePointsFromMatches(matches, rebuyMatches,
seasonSoireeNumber?, season?, rules)` (the `matches` parameter is spelled
`matchList` because `matches` is a Lean keyword). -/
def computePointsFromMatches (matchList : List CoreMatch) (rebuys : List RebuyMatch)
    (seasonSoireeNumber : Option Int) (season : Option Season)
    (rules : RulesConfig) : PtsMaps :=
  let afterMatches := matchList.foldl (applyMatch rules) PtsMaps.zero
  let soN := seasonSoireeNumber.getD 0
  let prior := priorCompletedCount soN season
  ((sortedRebuys rebuys).foldl (rebuyStep rules soN prior)
    { maps := afterMatches, localCompleted := fun _ => 0 }).maps

/-- Lexicographic comparison of character lists by code point: the model
of the `localeCompare`-based ascending name order (a deterministic total
order on names). -/
def lexLeB : List Char → List Char → Bool
  | [], _ => true
  | _ :: _, [] => false
  | c :: cs, d :: ds =>
      if c.toNat < d.toNat then true
      else if d.toNat < c.toNat then false
      else lexLeB cs ds

/-- Ascending name order, `a.name.localeCompare(b.name) ≤ 0`. -/
def nameLe (s t : String) : Prop := lexLeB s.data t.data = true

instance : ∀ s t, Decidable (nameLe s t) := fun s t =>
  decidable_of_iff (lexLeB s.data t.data = true) Iff.rfl

/-- A row of the season standings table, `{name, pts, wins, bonus}`. -/
structure TableRow where
  name : String
  pts : Int
  wins : Int
  bonus : Int
deriving DecidableEq, Repr, Inhabited

/-- The table comparator of `aggregateSeasonStats`: points descending,
then wins descending, then name ascending (`localeCompare` modelled as
the lexicographic order on strings). -/
def rowLE (x y : TableRow) : Prop :=
  y.pts < x.pts ∨ (x.pts = y.pts ∧ (y.wins < x.wins ∨ (x.wins = y.wins ∧ nameLe x.name y.name)))

instance : DecidableRel rowLE := fun x y =>
  decidable_of_iff
    (y.pts < x.pts ∨
      (x.pts = y.pts ∧ (y.wins < x.wins ∨ (x.wins = y.wins ∧ nameLe x.name y.name))))
    Iff.rfl



/-- One soirée of the accumulation loop of `aggregateSeasonStats`: merge
the per-soirée points-engine maps into the running totals (the source
merges map entries with `add`; for total functions defaulting to `0`
that is a pointwise sum). -/
def addSoiree (season : Season) (rules : RulesConfig) (acc : PtsMaps) (s : Soiree) : PtsMaps :=
  let r := computePointsFromMatches s.matchList s.rebuys (some s.number) (some season) rules
  { pts := fun p => acc.pts p + r.pts p
    wins := fun p => acc.wins p + r.wins p
    bonus := fun p => acc.bonus p + r.bonus p }

/-- The season-wide accumulator maps of `aggregateSeasonStats`: the sum,
over all soirées, of the per-soirée points-engine maps (the source then
defaults roster players to `0`, a no-op on total functions defaulting to
`0`). -/
def seasonMaps (season : Season) (rules : RulesConfig) : PtsMaps :=
  season.soirees.foldl (addSoiree season rules) PtsMaps.zero

/-- A player name referenced nowhere in a season's soirées: never a
(trimmed) contestant, winner, buyer, or pool member. -/
def unreferencedPlayer (season : Season) (p : String) : Prop :=
  ∀ s ∈ season.soirees,
    (∀ m ∈ s.matchList, normName m.a ≠ p ∧ normName m.b ≠ p ∧ normName m.winner ≠ p) ∧
      (∀ r ∈ s.rebuys,
        normName r.buyer ≠ p ∧ normName r.a ≠ p ∧ normName r.b ≠ p ∧ normName r.winner ≠ p) ∧
      p ∉ s.pools.A ∧ p ∉ s.pools.B

instance : ∀ (season : Season) (p : String), Decidable (unreferencedPlayer season p) :=
  fun season p =>
    decidable_of_iff
      (∀ s ∈ season.soirees,
        (∀ m ∈ s.matchList, normName m.a ≠ p ∧ normName m.b ≠ p ∧ normName m.winner ≠ p) ∧
          (∀ r ∈ s.rebuys,
            normName r.buyer ≠ p ∧ normName r.a ≠ p ∧ normName r.b ≠ p ∧
              normName r.winner ≠ p) ∧
          p ∉ s.pools.A ∧ p ∉ s.pools.B)
      Iff.rfl

/-- The result of `aggregateSeasonStats`: the ranked table together with
the season accumulator maps. -/
structure SeasonStats where
  table : List TableRow
  maps : PtsMaps

/-- Embedding of `aggregateSeasonStats(season, rules)`. -/
def aggregateSeasonStats (season : Season) (rules : RulesConfig) : SeasonStats :=
  let maps := seasonMaps season rules
  let rows := season.players.map fun name =>
    ({ name := name, pts := maps.pts name, wins := maps.wins name, bonus := maps.bonus name } : TableRow)
  { table := List.insertionSort rowLE rows, maps := maps }

/-- A row of the provisional-podium ranking, `{name, pts, wins}`. -/
structure RankRow where
  name : String
  pts : Int
  wins : Int
deriving DecidableEq, Repr, Inhabited

/-- The provisional-podium comparator: points descending, wins
descending, name ascending. -/
def rankLE (x y : RankRow) : Prop :=
  y.pts < x.pts ∨ (x.pts = y.pts ∧ (y.wins < x.wins ∨ (x.wins = y.wins ∧ nameLe x.name y.name)))

instance : DecidableRel rankLE := fun x y =>
  decidable_of_iff
    (y.pts < x.pts ∨
      (x.pts = y.pts ∧ (y.wins < x.wins ∨ (x.wins = y.wins ∧ nameLe x.name y.name))))
    Iff.rfl



/-- The podium of a soirée, with its provisional flag. -/
structure PodiumResult where
  first : String
  second : String
  third : String
  provisional : Bool
deriving DecidableEq, Repr, Inhabited

/-- The first `FINAL` match of a soirée (`matches.find`). -/
def finalMatchOf (so : Soiree) : Option CoreMatch :=
  so.matchList.find? fun m => m.phase = Phase.FINAL

/-- The first `PFINAL` match of a soirée (`matches.find`). -/
def pfinalMatchOf (so : Soiree) : Option CoreMatch :=
  so.matchList.find? fun m => m.phase = Phase.PFINAL

/-- The trimmed winner of the soirée's `FINAL` (`normName(final?.winner ?? "")`). -/
def finalWinnerName (so : Soiree) : String :=
  normName (((finalMatchOf so).map CoreMatch.winner).getD "")

/-- The trimmed contestant `a` of the soirée's `FINAL`. -/
def finalAName (so : Soiree) : String :=
  normName (((finalMatchOf so).map CoreMatch.a).getD "")

/-- The trimmed contestant `b` of the soirée's `FINAL`. -/
def finalBName (so : Soiree) : String :=
  normName (((finalMatchOf so).map CoreMatch.b).getD "")

/-- The trimmed winner of the soirée's `PFINAL` (`normName(pfinal?.winner ?? "")`). -/
def pfinalWinnerName (so : Soiree) : String :=
  normName (((pfinalMatchOf so).map CoreMatch.winner).getD "")

/-- The `second` computation of `currentPodium`: the other contestant of
the `FINAL` when the winner is consistent, empty otherwise. -/
def finalSecondName (so : Soiree) : String :=
  if finalWinnerName so ≠ "" ∧
      (finalWinnerName so = finalAName so ∨ finalWinnerName so = finalBName so) then
    if finalWinnerName so = finalAName so then finalBName so else finalAName so
  else ""

/-- The ranked rows of the provisional podium: every roster player with
the soirée's matches-only points and wins, sorted by `rankLE`. -/
def provisionalRows (season : Season) (so : Soiree) (rules : RulesConfig) : List RankRow :=
  let maps := computePointsFromMatches so.matchList [] (some so.number) (some season) rules
  List.insertionSort rankLE
    (season.players.map fun p => ({ name := p, pts := maps.pts p, wins := maps.wins p } : RankRow))

/-- Embedding of the `currentPodium` computation for one soirée. -/
def currentPodium (season : Season) (so : Soiree) (rules : RulesConfig) : PodiumResult :=
  if finalWinnerName so = "" ∨ finalSecondName so = "" ∨ pfinalWinnerName so = "" then
    let rows := provisionalRows season so rules
    { first := ((rows.get? 0).map RankRow.name).getD ""
      second := ((rows.get? 1).map RankRow.name).getD ""
      third := ((rows.get? 2).map RankRow.name).getD ""
      provisional := true }
  else
    { first := finalWinnerName so, second := finalSecondName so,
      third := pfinalWinnerName so, provisional := false }

/-- The state of the win-streak scan: current streak and best streak per
player (maps read through `get(k) ?? 0`). -/
structure StreakState where
  streak : String → Nat
  best : String → Nat

/-- Pointwise update of a `String → Nat` map (`map.set(k, v)`). -/
def fupd (f : String → Nat) (k : String) (v : Nat) : String → Nat :=
  fun x => if x = k then v else f x

/-- The `setBest` helper of `computeWinStreaks`. -/
def setBest (st : StreakState) (p : String) : StreakState :=
  { st with best := fupd st.best p (max (st.best p) (st.streak p)) }

/-- The `applyResult` helper of `computeWinStreaks`: on a decided result
with a valid winner, increment the winner's streak (recording its best)
and reset the loser's streak. -/
def applyResult (st : StreakState) (a0 b0 w0 : String) : StreakState :=
  let a := normName a0
  let b := normName b0
  let w := normName w0
  if a = "" ∨ b = "" ∨ w = "" then st
  else
    let loser := if w = a then b else if w = b then a else ""
    if loser = "" then st
    else
      let st1 := { st with streak := fupd st.streak w (st.streak w + 1) }
      let st2 := setBest st1 w
      let st3 := { st2 with streak := fupd st2.streak loser 0 }
      setBest st3 loser

/-- The rebuy case of the `computeWinStreaks` scan: a rebuy won by its
buyer is applied as buyer vs effective opponent; any other decided rebuy
resets the buyer's streak. -/
def rebuyStreakStep (st : StreakState) (r : RebuyMatch) : StreakState :=
  if normName r.winner ≠ "" ∧ normName r.winner = normName r.buyer then
    let opp := if normName r.a = normName r.buyer then r.b else r.a
    applyResult st r.buyer opp r.winner
  else if normName r.winner ≠ "" then
    let st1 := { st with streak := fupd st.streak (normName r.buyer) 0 }
    setBest st1 (normName r.buyer)
  else st

/-- A match list sorted by ascending `order` (stably). -/
def sortedByOrder (ms : List CoreMatch) : List CoreMatch :=
  List.insertionSort (fun x y => x.order ≤ y.order) ms

/-- One soirée of the `computeWinStreaks` scan: matches by ascending
`order`, then rebuys by ascending `createdAt`. -/
def streakSoiree (st : StreakState) (s : Soiree) : StreakState :=
  let st1 := (sortedByOrder s.matchList).foldl (fun acc m => applyResult acc m.a m.b m.winner) st
  (sortedRebuys s.rebuys).foldl rebuyStreakStep st1

/-- The output comparator of `computeWinStreaks`: best streak descending,
then player name ascending. -/
def streakRowLE (x y : String × Nat) : Prop :=
  y.2 < x.2 ∨ (x.2 = y.2 ∧ nameLe x.1 y.1)

instance : DecidableRel streakRowLE := fun x y =>
  decidable_of_iff (y.2 < x.2 ∨ (x.2 = y.2 ∧ nameLe x.1 y.1)) Iff.rfl

/-- Embedding of `computeWinStreaks(season)`: per roster player, the best
run of consecutive wins over the soirées in list order. -/
def computeWinStreaks (season : Season) : List (String × Nat) :=
  let fin := season.soirees.foldl streakSoiree ⟨fun _ => 0, fun _ => 0⟩
  let out := season.players.map fun p => (p, fin.best p)
  List.insertionSort streakRowLE out

/-- One win/loss event applied to the streak state: a win bumps the
player's streak and records the best, a loss resets the streak (and
re-records the best, a no-op).  `applyResult` and the rebuy cases of the
streak scan are exactly folds of their event lists through this step. -/
def applyEvent (st : StreakState) (e : String × Bool) : StreakState :=
  if e.2 then
    let st1 := { st with streak := fupd st.streak e.1 (st.streak e.1 + 1) }
    setBest st1 e.1
  else
    let st1 := { st with streak := fupd st.streak e.1 0 }
    setBest st1 e.1

/-- The win/loss events a decided result contributes: winner win, loser
loss; nothing when a name is empty or the winner matches neither
contestant. -/
def resultEvents (a0 b0 w0 : String) : List (String × Bool) :=
  let a := normName a0
  let b := normName b0
  let w := normName w0
  if a = "" ∨ b = "" ∨ w = "" then []
  else
    let loser := if w = a then b else if w = b then a else ""
    if loser = "" then [] else [(w, true), (loser, false)]

/-- The events a rebuy contributes: a rebuy won by its buyer is a result
of buyer versus the effective opponent; any other decided rebuy is a
loss for the buyer; an undecided rebuy contributes nothing. -/
def rebuyEvents (r : RebuyMatch) : List (String × Bool) :=
  if normName r.winner ≠ "" ∧ normName r.winner = normName r.buyer then
    let opp := if normName r.a = normName r.buyer then r.b else r.a
    resultEvents r.buyer opp r.winner
  else if normName r.winner ≠ "" then [(normName r.buyer, false)]
  else []

/-- The chronological event list of one soirée: matches by ascending
`order`, then rebuys by ascending `createdAt`. -/
def soireeEvents (s : Soiree) : List (String × Bool) :=
  (sortedByOrder s.matchList).flatMap (fun m => resultEvents m.a m.b m.winner) ++
    (sortedRebuys s.rebuys).flatMap rebuyEvents

/-- The chronological event list of a season, its soirées taken in
ascending `number` order (the claim's notion of chronological order). -/
def seasonEvents (season : Season) : List (String × Bool) :=
  (List.insertionSort (fun s t => s.number ≤ t.number) season.soirees).flatMap soireeEvents

/-- The outcome sequence of one player: that player's wins and losses,
in order, extracted from an event list. -/
def playerOutcomes (p : String) (events : List (String × Bool)) : List Bool :=
  events.filterMap fun e => if e.1 = p then some e.2 else none

/-- One outcome applied to a (current run, best run) pair: a win extends
the current run of consecutive wins, a loss resets it to zero. -/
def streakFoldStep (cb : Nat × Nat) (b : Bool) : Nat × Nat :=
  if b then (cb.1 + 1, max cb.2 (cb.1 + 1)) else (0, cb.2)

/-- The length of the longest run of consecutive wins in an outcome
sequence — the claim-side specification of a player's best streak. -/
def longestWinRun (l : List Bool) : Nat := (l.foldl streakFoldStep (0, 0)).2

/-- The player-to-index map of `computeHeadToHead`
(`new Map(players.map((p, i) => [p, i]))`; a later duplicate overwrites
an earlier one, as in a JS `Map`). -/
def h2hIndex (players : List String) : String → Option Nat :=
  players.enum.foldl (fun f pr => fun x => if x = pr.2 then some pr.1 else f x) (fun _ => none)

/-- One match of the `computeHeadToHead` scan: count a beat of the loser
by the winner when all of `a`, `b`, `winner` are on the roster index. -/
def h2hStep (idx : String → Option Nat) (mtx : Nat → Nat → Nat) (m : CoreMatch) :
    Nat → Nat → Nat :=
  let w := normName m.winner
  if w = "" then mtx
  else
    let a := normName m.a
    let b := normName m.b
    if (idx a).isSome ∧ (idx b).isSome ∧ (idx w).isSome then
      let loser := if w = a then b else if w = b then a else ""
      if loser = "" then mtx
      else
        match idx w, idx loser with
        | some wi, some li => fun i j => if i = wi ∧ j = li then mtx i j + 1 else mtx i j
        | _, _ => mtx
    else mtx

/-- Embedding of the matrix of `computeHeadToHead(season)`, as a total
function on index pairs (entries outside the roster square stay `0`). -/
def computeHeadToHead (season : Season) : Nat → Nat → Nat :=
  let idx := h2hIndex season.players
  season.soirees.foldl (fun mtx s => s.matchList.foldl (h2hStep idx) mtx) (fun _ _ => 0)

/-- The `currentSoiree` selection: the soirée with the selected number,
falling back to the first soirée of the season. -/
def currentSoireeOpt (season : Season) (n : Int) : Option Soiree :=
  match season.soirees.find? (fun s => s.number = n) with
  | some s => some s
  | none => season.soirees.head?

/-- Embedding of the per-match update of `setMatchWinner`: a winner is
accepted only when its trimmed name is non-empty and equals the trimmed
`a` or `b`; otherwise the winner is cleared and with it the
checkout-bonus flag. -/
def setMatchWinnerUpdate (winner : String) (m : CoreMatch) : CoreMatch :=
  let w := normName winner
  if w ≠ "" ∧ (w = normName m.a ∨ w = normName m.b) then
    { m with winner := w, status := MatchStatus.VALIDATED }
  else
    { m with winner := "", status := MatchStatus.PENDING, checkout100 := false }

/-- Embedding of `setMatchWinner(matchId, winner)` on the season, with
`n` the selected soirée number. -/
def setMatchWinner (season : Season) (n : Int) (matchId winner : String) : Season :=
  match currentSoireeOpt season n with
  | none => season
  | some cur =>
      { season with
          soirees := season.soirees.map fun s =>
            if s.number = cur.number then
              { s with
                  matchList := s.matchList.map fun m =>
                    if m.id = matchId then setMatchWinnerUpdate winner m else m }
            else s }

/-- The per-match update of `recalcFinalAndPFinal`, given the two semi
winners `w1`, `w2` and the two semi losers `l1`, `l2`: the `FINAL` gets
the winners as contestants (both empty unless both semis are decided),
the `PFINAL` gets the losers, a previously recorded winner is kept only
if it equals one of the new contestants, and every other match is left
unchanged.  The `checkout100` flag is not touched. -/
def recalcUpdateMatch (w1 w2 l1 l2 : String) (m : CoreMatch) : CoreMatch :=
  if m.phase = Phase.FINAL then
    let a := if w1 ≠ "" ∧ w2 ≠ "" then w1 else ""
    let b := if w1 ≠ "" ∧ w2 ≠ "" then w2 else ""
    let keep := if m.winner ≠ "" ∧ (m.winner = a ∨ m.winner = b) then m.winner else ""
    { m with a := a, b := b, winner := keep
             status := if keep ≠ "" then MatchStatus.VALIDATED else MatchStatus.PENDING }
  else if m.phase = Phase.PFINAL then
    let a := if l1 ≠ "" ∧ l2 ≠ "" then l1 else ""
    let b := if l1 ≠ "" ∧ l2 ≠ "" then l2 else ""
    let keep := if m.winner ≠ "" ∧ (m.winner = a ∨ m.winner = b) then m.winner else ""
    { m with a := a, b := b, winner := keep
             status := if keep ≠ "" then MatchStatus.VALIDATED else MatchStatus.PENDING }
  else m

/-- The loser of a semi: the non-winner contestant, empty when the semi
is undecided or its winner matches neither contestant. -/
def demiLoserOf (d : CoreMatch) : String :=
  let w := normName d.winner
  if w = "" then "" else if w = d.a then d.b else if w = d.b then d.a else ""

/-- Embedding of `recalcFinalAndPFinal()` with `n` the selected soirée
number: a silent no-op when the soirée has fewer than two `DEMI`
matches, otherwise the `FINAL` and `PFINAL` of that soirée are updated
from the two semis (taken in ascending `order`). -/
def recalcFinalAndPFinal (season : Season) (n : Int) : Season :=
  match currentSoireeOpt season n with
  | none => season
  | some cur =>
      let demis := sortedByOrder (cur.matchList.filter fun m => m.phase = Phase.DEMI)
      if demis.length < 2 then season
      else
        let d1 := demis.getD 0 default
        let d2 := demis.getD 1 default
        let w1 := normName d1.winner
        let w2 := normName d2.winner
        let l1 := demiLoserOf d1
        let l2 := demiLoserOf d2
        { season with
            soirees := season.soirees.map fun s =>
              if s.number = cur.number then
                { s with matchList := s.matchList.map (recalcUpdateMatch w1 w2 l1 l2) }
              else s }

/-- Embedding of the pool-seeding step of `startNewSoiree`: for a next
number of at most 2 the shuffled roster is split 4/4 (`shuffled` stands
for the random shuffle); from 3 on the season standings are split by
alternating rank.  `none` models the empty-season case, where
`Math.max()` is `-Infinity` (the app always has at least one soirée). -/
def startNewSoireePools (season : Season) (rules : RulesConfig)
    (shuffled : List String) : Option Pools :=
  match (season.soirees.map Soiree.number).max? with
  | none => none
  | some mx =>
      let nextNumber := mx + 1
      if nextNumber ≤ 2 then
        some { A := shuffled.take 4, B := (shuffled.drop 4).take 4 }
      else
        let ranked := (aggregateSeasonStats season rules).table.map TableRow.name
        some
          { A := ([ranked.get? 0, ranked.get? 2, ranked.get? 4, ranked.get? 6].filterMap id).filter
              (fun p => p ≠ "")
            B := ([ranked.get? 1, ranked.get? 3, ranked.get? 5, ranked.get? 7].filterMap id).filter
              (fun p => p ≠ "") }

/-- Which side of a match produced the checkout, `A` for contestant `a`
and `B` for contestant `b`. -/
inductive Side
  | A
  | B
deriving DecidableEq, Repr, Inhabited

/-- Modelled from the spec (§4.1 step 1 and the Design Notes): the source
data model carries only the boolean `checkout100` and no per-side
attribution, while the spec requires an explicit per-side flag tagged
`A`/`B`; a match extended with that flag. -/
structure AttributedMatch where
  core : CoreMatch
  checkoutBy : Option Side
deriving DecidableEq, Repr, Inhabited

/-- Modelled from the spec: the player name of the side that produced
the checkout. -/
def checkoutProducer (m : AttributedMatch) : String :=
  match m.checkoutBy with
  | some Side.A => normName m.core.a
  | some Side.B => normName m.core.b
  | none => ""

/-- Modelled from the spec (§4.1 step 1): like the match loop of
`computePointsFromMatches`, except that the checkout bonus point and the
bonus-count increment go to whichever side produced the checkout rather
than to the recorded winner. -/
def specApplyMatchCheckout (rules : RulesConfig) (st : PtsMaps) (m : AttributedMatch) : PtsMaps :=
  let w := normName m.core.winner
  if w = "" then st
  else
    let basePts := if m.core.phase = Phase.PFINAL then rules.smallFinalPoints else rules.winPoints
    let pts1 := mapAdd st.pts w basePts
    let wins1 := mapAdd st.wins w 1
    if m.core.checkout100 then
      let t := checkoutProducer m
      { pts := mapAdd pts1 t rules.checkoutBonusPoints
        wins := wins1
        bonus := mapAdd st.bonus t 1 }
    else
      { pts := pts1, wins := wins1, bonus := st.bonus }

/-- Modelled from the spec: the match part of the points engine with
per-side checkout attribution. -/
def specPointsCheckout (rules : RulesConfig) (ms : List AttributedMatch) : PtsMaps :=
  ms.foldl (specApplyMatchCheckout rules) PtsMaps.zero

/-- The spec's condition for a finalized podium: the `FINAL` has a
winner consistent with its two contestants (so the loser side is a real
player) and the `PFINAL` has a winner.  A non-empty winner name already
implies the match exists. -/
def podiumDecided (so : Soiree) : Prop :=
  finalWinnerName so ≠ "" ∧
    ((finalWinnerName so = finalAName so ∧ finalBName so ≠ "") ∨
      (finalWinnerName so = finalBName so ∧ finalAName so ≠ "")) ∧
    pfinalWinnerName so ≠ ""

instance : DecidablePred podiumDecided := fun so =>
  decidable_of_iff
    (finalWinnerName so ≠ "" ∧
      ((finalWinnerName so = finalAName so ∧ finalBName so ≠ "") ∨
        (finalWinnerName so = finalBName so ∧ finalAName so ≠ "")) ∧
      pfinalWinnerName so ≠ "")
    Iff.rfl


/-- The rebuy-loop run of `computePointsFromMatches` on an explicit rebuy
list: the state after folding `rebuyStep` from the after-matches
accumulators and an all-zero `localCompleted` map. -/
def rebuyRunState (rules : RulesConfig) (soN : Int) (season : Season)
    (matchList : List CoreMatch) (l : List RebuyMatch) : RebuyState :=
  l.foldl (rebuyStep rules soN (priorCompletedCount soN (some season)))
    { maps := matchList.foldl (applyMatch rules) PtsMaps.zero, localCompleted := fun _ => 0 }

/-- A match with its checkout flag cleared: comparing a run against the
same run on checkout-stripped matches isolates the points credited for
checkouts. -/
def stripCheckout (m : CoreMatch) : CoreMatch := { m with checkout100 := false }

/-! ### Example data used for concrete instances -/

/-- A decided pool match, won by BOB with the checkout flag set. -/
def exM1 : CoreMatch :=
  { id := "m1", order := 1, phase := Phase.POULE, status := MatchStatus.VALIDATED,
    pool := none, a := "ALICE", b := "BOB", winner := "BOB", checkout100 := true }

/-- A rebuy won by its buyer CARA. -/
def exR1 : RebuyMatch :=
  { id := "r1", buyer := "CARA", a := "CARA", b := "BOB", winner := "CARA", createdAt := 10 }

/-- A rebuy lost by its buyer CARA (the opponent BOB won). -/
def exR2 : RebuyMatch :=
  { id := "r2", buyer := "CARA", a := "CARA", b := "BOB", winner := "BOB", createdAt := 5 }

/-- An undecided rebuy bought by DAN. -/
def exR3 : RebuyMatch :=
  { id := "r3", buyer := "DAN", a := "DAN", b := "BOB", winner := "", createdAt := 7 }

/-- Soirée 1 of the example season: one checkout match and CARA's lost
rebuy. -/
def exSoiree1 : Soiree :=
  { id := "s1", number := 1, pools := { A := ["ALICE", "BOB"], B := ["CARA", "DAN"] },
    matchList := [exM1], rebuys := [exR2] }

/-- Soirée 3 of the example season: three rebuys, CARA's winning one
created last. -/
def exSoiree3 : Soiree :=
  { id := "s3", number := 3, pools := { A := ["ALICE", "BOB"], B := ["CARA", "DAN"] },
    matchList := [], rebuys := [exR1, exR2, exR3] }

/-- The example season. -/
def exSeason : Season :=
  { players := ["ALICE", "BOB", "CARA", "DAN"], soirees := [exSoiree1, exSoiree3] }

/-- An all-zero rebuy-loop state. -/
def exState0 : RebuyState :=
  { maps := PtsMaps.zero, localCompleted := fun _ => 0 }

/-- The example season's standings order (BOB 3 pts, CARA 1 pt, then the
pointless players by name). -/
def exRanked : List String := ["BOB", "CARA", "ALICE", "DAN"]

/-- A match with an empty contestant `b`. -/
def exM0 : CoreMatch :=
  { id := "m0", order := 1, phase := Phase.DEMI, status := MatchStatus.PENDING,
    pool := none, a := "X", b := "", winner := "", checkout100 := false }

/-- First semi of the bracket example, won by ALICE. -/
def exDemi1 : CoreMatch :=
  { id := "d1", order := 13, phase := Phase.DEMI, status := MatchStatus.VALIDATED,
    pool := none, a := "ALICE", b := "BOB", winner := "ALICE", checkout100 := false }

/-- Second semi of the bracket example, won by DAN. -/
def exDemi2 : CoreMatch :=
  { id := "d2", order := 14, phase := Phase.DEMI, status := MatchStatus.VALIDATED,
    pool := none, a := "CARA", b := "DAN", winner := "DAN", checkout100 := false }

/-- A small final with stale contestants. -/
def exPFinal : CoreMatch :=
  { id := "pf", order := 15, phase := Phase.PFINAL, status := MatchStatus.PENDING,
    pool := none, a := "OLD3", b := "OLD4", winner := "", checkout100 := false }

/-- A final with stale contestants, a stale recorded winner, and the
checkout flag set. -/
def exFinal : CoreMatch :=
  { id := "f", order := 16, phase := Phase.FINAL, status := MatchStatus.VALIDATED,
    pool := none, a := "OLD1", b := "OLD2", winner := "OLD1", checkout100 := true }

/-- A decided final between ALICE and DAN. -/
def exFinal2 : CoreMatch :=
  { id := "f2", order := 16, phase := Phase.FINAL, status := MatchStatus.VALIDATED,
    pool := none, a := "ALICE", b := "DAN", winner := "ALICE", checkout100 := false }

/-- A decided small final won by CARA. -/
def exPFinal2 : CoreMatch :=
  { id := "pf2", order := 15, phase := Phase.PFINAL, status := MatchStatus.VALIDATED,
    pool := none, a := "BOB", b := "CARA", winner := "CARA", checkout100 := false }

/-- A soirée with two decided semis and a stale final and small final. -/
def exSoiree4 : Soiree :=
  { id := "s4", number := 4, pools := { A := ["ALICE", "BOB"], B := ["CARA", "DAN"] },
    matchList := [exDemi1, exDemi2, exPFinal, exFinal], rebuys := [] }

/-- A season holding only the bracket example soirée. -/
def exSeason2 : Season :=
  { players := ["ALICE", "BOB", "CARA", "DAN"], soirees := [exSoiree4] }

/-- A soirée whose final and small final are both properly decided. -/
def exSoiree5 : Soiree :=
  { id := "s5", number := 5, pools := { A := ["ALICE", "BOB"], B := ["CARA", "DAN"] },
    matchList := [exDemi1, exDemi2, exPFinal2, exFinal2], rebuys := [] }

/-! ### The name order is total and transitive -/

theorem lexLeB_total : ∀ a b : List Char, lexLeB a b = true ∨ lexLeB b a = true
  | [], _ => Or.inl rfl
  | _ :: _, [] => Or.inr rfl
  | c :: cs, d :: ds => by
      by_cases h1 : c.toNat < d.toNat
      · left
        simp [lexLeB, h1]
      · by_cases h2 : d.toNat < c.toNat
        · right
          simp [lexLeB, h2]
        · rcases lexLeB_total cs ds with h | h
          · left
            simp [lexLeB, h1, h2, h]
          · right
            simp [lexLeB, h1, h2, h]

theorem lexLeB_trans : ∀ a b c : List Char,
    lexLeB a b = true → lexLeB b c = true → lexLeB a c = true
  | [], _, _ => fun _ _ => rfl
  | _ :: _, [], _ => fun hab _ => by simp [lexLeB] at hab
  | _ :: _, _ :: _, [] => fun _ hbc => by simp [lexLeB] at hbc
  | x :: xs, y :: ys, z :: zs => fun hab hbc => by
      simp only [lexLeB] at hab hbc ⊢
      by_cases h1 : x.toNat < y.toNat
      · by_cases h2 : y.toNat < z.toNat
        · simp [show x.toNat < z.toNat by omega]
        · by_cases h3 : z.toNat < y.toNat
          · simp [h2, h3] at hbc
          · simp [show x.toNat < z.toNat by omega]
      · by_cases h1' : y.toNat < x.toNat
        · simp [h1, h1'] at hab
        · by_cases h2 : y.toNat < z.toNat
          · simp [show x.toNat < z.toNat by omega]
          · by_cases h3 : z.toNat < y.toNat
            · simp [h2, h3] at hbc
            · have hxz : ¬x.toNat < z.toNat := by omega
              have hzx : ¬z.toNat < x.toNat := by omega
              simp [h1, h1'] at hab
              simp [h2, h3] at hbc
              simp [hxz, hzx]
              exact lexLeB_trans xs ys zs hab hbc

theorem nameLe_total (s t : String) : nameLe s t ∨ nameLe t s := lexLeB_total s.data t.data

theorem nameLe_trans {s t u : String} (h1 : nameLe s t) (h2 : nameLe t u) : nameLe s u :=
  lexLeB_trans s.data t.data u.data h1 h2

theorem rowLE_total : ∀ a b : TableRow, rowLE a b ∨ rowLE b a := by
  intro a b
  unfold rowLE
  rcases lt_trichotomy a.pts b.pts with h | h | h
  · exact Or.inr (Or.inl h)
  · rcases lt_trichotomy a.wins b.wins with h' | h' | h'
    · exact Or.inr (Or.inr ⟨h.symm, Or.inl h'⟩)
    · rcases nameLe_total a.name b.name with h'' | h''
      · exact Or.inl (Or.inr ⟨h, Or.inr ⟨h', h''⟩⟩)
      · exact Or.inr (Or.inr ⟨h.symm, Or.inr ⟨h'.symm, h''⟩⟩)
    · exact Or.inl (Or.inr ⟨h, Or.inl h'⟩)
  · exact Or.inl (Or.inl h)

theorem rowLE_trans : ∀ a b c : TableRow, rowLE a b → rowLE b c → rowLE a c := by
  intro a b c hab hbc
  unfold rowLE at *
  rcases hab with h1 | ⟨e1, h1⟩
  · rcases hbc with h2 | ⟨e2, h2⟩
    · exact Or.inl (h2.trans h1)
    · exact Or.inl (e2 ▸ h1)
  · rcases hbc with h2 | ⟨e2, h2⟩
    · exact Or.inl (e1 ▸ h2)
    · refine Or.inr ⟨e1.trans e2, ?_⟩
      rcases h1 with h1 | ⟨f1, h1⟩
      · rcases h2 with h2 | ⟨f2, h2⟩
        · exact Or.inl (h2.trans h1)
        · exact Or.inl (f2 ▸ h1)
      · rcases h2 with h2 | ⟨f2, h2⟩
        · exact Or.inl (f1 ▸ h2)
        · exact Or.inr ⟨f1.trans f2, nameLe_trans h1 h2⟩

theorem rankLE_total : ∀ a b : RankRow, rankLE a b ∨ rankLE b a := by
  intro a b
  unfold rankLE
  rcases lt_trichotomy a.pts b.pts with h | h | h
  · exact Or.inr (Or.inl h)
  · rcases lt_trichotomy a.wins b.wins with h' | h' | h'
    · exact Or.inr (Or.inr ⟨h.symm, Or.inl h'⟩)
    · rcases nameLe_total a.name b.name with h'' | h''
      · exact Or.inl (Or.inr ⟨h, Or.inr ⟨h', h''⟩⟩)
      · exact Or.inr (Or.inr ⟨h.symm, Or.inr ⟨h'.symm, h''⟩⟩)
    · exact Or.inl (Or.inr ⟨h, Or.inl h'⟩)
  · exact Or.inl (Or.inl h)

theorem rankLE_trans : ∀ a b c : RankRow, rankLE a b → rankLE b c → rankLE a c := by
  intro a b c hab hbc
  unfold rankLE at *
  rcases hab with h1 | ⟨e1, h1⟩
  · rcases hbc with h2 | ⟨e2, h2⟩
    · exact Or.inl (h2.trans h1)
    · exact Or.inl (e2 ▸ h1)
  · rcases hbc with h2 | ⟨e2, h2⟩
    · exact Or.inl (e1 ▸ h2)
    · refine Or.inr ⟨e1.trans e2, ?_⟩
      rcases h1 with h1 | ⟨f1, h1⟩
      · rcases h2 with h2 | ⟨f2, h2⟩
        · exact Or.inl (h2.trans h1)
        · exact Or.inl (f2 ▸ h1)
      · rcases h2 with h2 | ⟨f2, h2⟩
        · exact Or.inl (f1 ▸ h2)
        · exact Or.inr ⟨f1.trans f2, nameLe_trans h1 h2⟩

/-! ### Lemmas about the points-engine folds -/

theorem mapAdd_apply_ne {f : String → Int} {k p : String} (d : Int) (h : p ≠ k) :
    mapAdd f k d p = f p := by
  unfold mapAdd
  split
  · rfl
  · simp [h]

theorem mapAdd_apply_self {f : String → Int} {k : String} (d : Int) (h : k ≠ "") :
    mapAdd f k d k = f k + d := by
  unfold mapAdd
  simp [h]

theorem applyMatch_bonus (rules : RulesConfig) (st : PtsMaps) (m : CoreMatch)
    (p : String) (hp : p ≠ "") :
    (applyMatch rules st m).bonus p =
      st.bonus p + (if normName m.winner = p ∧ m.checkout100 = true then 1 else 0) := by
  simp only [applyMatch]
  by_cases hw : normName m.winner = ""
  · rw [if_pos hw, if_neg (fun h => hp (h.1.symm.trans hw)), add_zero]
  · rw [if_neg hw]
    by_cases hco : m.checkout100 = true
    · rw [if_pos hco]
      dsimp only
      by_cases hwp : normName m.winner = p
      · rw [if_pos ⟨hwp, hco⟩, hwp, mapAdd_apply_self 1 hp]
      · rw [if_neg (fun h => hwp h.1), mapAdd_apply_ne 1 (fun h => hwp h.symm), add_zero]
    · rw [if_neg hco]
      dsimp only
      rw [if_neg (fun h => hco h.2), add_zero]

theorem applyMatch_wins (rules : RulesConfig) (st : PtsMaps) (m : CoreMatch)
    (p : String) (hp : p ≠ "") :
    (applyMatch rules st m).wins p =
      st.wins p + (if normName m.winner = p then 1 else 0) := by
  simp only [applyMatch]
  by_cases hw : normName m.winner = ""
  · rw [if_pos hw, if_neg (fun h => hp (h.symm.trans hw)), add_zero]
  · rw [if_neg hw]
    by_cases hco : m.checkout100 = true
    · rw [if_pos hco]
      dsimp only
      by_cases hwp : normName m.winner = p
      · rw [if_pos hwp, hwp, mapAdd_apply_self 1 hp]
      · rw [if_neg hwp, mapAdd_apply_ne 1 (fun h => hwp h.symm), add_zero]
    · rw [if_neg hco]
      dsimp only
      by_cases hwp : normName m.winner = p
      · rw [if_pos hwp, hwp, mapAdd_apply_self 1 hp]
      · rw [if_neg hwp, mapAdd_apply_ne 1 (fun h => hwp h.symm), add_zero]

theorem applyMatch_untouched (rules : RulesConfig) (st : PtsMaps) (m : CoreMatch)
    (p : String) (hp : p ≠ normName m.winner) :
    (applyMatch rules st m).pts p = st.pts p ∧
      (applyMatch rules st m).wins p = st.wins p ∧
      (applyMatch rules st m).bonus p = st.bonus p := by
  simp only [applyMatch]
  by_cases hw : normName m.winner = ""
  · rw [if_pos hw]
    exact ⟨rfl, rfl, rfl⟩
  · rw [if_neg hw]
    by_cases hco : m.checkout100 = true
    · rw [if_pos hco]
      exact ⟨(mapAdd_apply_ne _ hp).trans (mapAdd_apply_ne _ hp),
        mapAdd_apply_ne _ hp, mapAdd_apply_ne _ hp⟩
    · rw [if_neg hco]
      exact ⟨mapAdd_apply_ne _ hp, mapAdd_apply_ne _ hp, rfl⟩

theorem matchFold_bonus (rules : RulesConfig) (l : List CoreMatch) (st : PtsMaps)
    (p : String) (hp : p ≠ "") :
    (l.foldl (applyMatch rules) st).bonus p =
      st.bonus p + ((l.filter fun m => normName m.winner = p ∧ m.checkout100 = true).length : Int) := by
  induction l generalizing st with
  | nil => simp
  | cons m l ih =>
      rw [List.foldl_cons, ih, applyMatch_bonus rules st m p hp, List.filter_cons]
      by_cases hc : normName m.winner = p ∧ m.checkout100 = true
      · simp [hc]
        ring
      · simp [hc]

theorem matchFold_wins (rules : RulesConfig) (l : List CoreMatch) (st : PtsMaps)
    (p : String) (hp : p ≠ "") :
    (l.foldl (applyMatch rules) st).wins p =
      st.wins p + ((l.filter fun m => normName m.winner = p).length : Int) := by
  induction l generalizing st with
  | nil => simp
  | cons m l ih =>
      rw [List.foldl_cons, ih, applyMatch_wins rules st m p hp, List.filter_cons]
      by_cases hc : normName m.winner = p
      · simp [hc]
        ring
      · simp [hc]

theorem matchFold_untouched (rules : RulesConfig) (l : List CoreMatch) (st : PtsMaps)
    (p : String) (hp : ∀ m ∈ l, normName m.winner ≠ p) :
    (l.foldl (applyMatch rules) st).pts p = st.pts p ∧
      (l.foldl (applyMatch rules) st).wins p = st.wins p ∧
      (l.foldl (applyMatch rules) st).bonus p = st.bonus p := by
  induction l generalizing st with
  | nil => exact ⟨rfl, rfl, rfl⟩
  | cons m l ih =>
      rw [List.foldl_cons]
      have hm : p ≠ normName m.winner := fun h => hp m (List.mem_cons_self m l) h.symm
      have hstep := applyMatch_untouched rules st m p hm
      obtain ⟨h1, h2, h3⟩ := ih (applyMatch rules st m) (fun m' h => hp m' (List.mem_cons_of_mem m h))
      exact ⟨h1.trans hstep.1, h2.trans hstep.2.1, h3.trans hstep.2.2⟩

theorem rebuyStep_bonus (rules : RulesConfig) (soN : Int) (prior : String → Nat)
    (st : RebuyState) (r : RebuyMatch) :
    (rebuyStep rules soN prior st r).maps.bonus = st.maps.bonus := by
  simp only [rebuyStep]
  split_ifs <;> rfl

theorem rebuyStep_skip (rules : RulesConfig) (soN : Int) (prior : String → Nat)
    (st : RebuyState) (r : RebuyMatch) (h : normName r.winner ≠ normName r.buyer) :
    (rebuyStep rules soN prior st r).maps = st.maps := by
  simp only [rebuyStep]
  split_ifs <;> rfl

theorem rebuyStep_undecided (rules : RulesConfig) (soN : Int) (prior : String → Nat)
    (st : RebuyState) (r : RebuyMatch) (h : normName r.winner = "") :
    rebuyStep rules soN prior st r = st := by
  simp only [rebuyStep]
  rw [if_pos (Or.inr h)]

theorem rebuyStep_other (rules : RulesConfig) (soN : Int) (prior : String → Nat)
    (st : RebuyState) (r : RebuyMatch) (q : String) (h : q ≠ normName r.buyer) :
    (rebuyStep rules soN prior st r).maps.pts q = st.maps.pts q ∧
      (rebuyStep rules soN prior st r).maps.wins q = st.maps.wins q := by
  simp only [rebuyStep]
  split_ifs <;>
    first
      | exact ⟨rfl, rfl⟩
      | exact ⟨mapAdd_apply_ne _ h, mapAdd_apply_ne _ h⟩

theorem rebuyStep_local (rules : RulesConfig) (soN : Int) (prior : String → Nat)
    (st : RebuyState) (r : RebuyMatch) (b : String) (hb : b ≠ "") :
    (rebuyStep rules soN prior st r).localCompleted b =
      st.localCompleted b +
        (if normName r.buyer = b ∧ normName r.winner ≠ "" then 1 else 0) := by
  by_cases hc : normName r.buyer = b ∧ normName r.winner ≠ ""
  · rw [if_pos hc]
    simp only [rebuyStep]
    have hno : ¬(normName r.buyer = "" ∨ normName r.winner = "") := by
      rintro (h | h)
      · exact hb (hc.1.symm.trans h)
      · exact hc.2 h
    rw [if_neg hno]
    split_ifs <;>
      · dsimp only
        simp only [incLocal]
        rw [if_pos hc.1.symm]
  · rw [if_neg hc, add_zero]
    simp only [rebuyStep]
    split_ifs with h1
    · rfl
    all_goals
      push_neg at h1
      dsimp only
      simp only [incLocal]
      rw [if_neg (fun h : b = normName r.buyer => hc ⟨h.symm, h1.2⟩)]

theorem rebuyStep_wins (rules : RulesConfig) (soN : Int) (prior : String → Nat)
    (st : RebuyState) (r : RebuyMatch) (p : String) (hp : p ≠ "") :
    (rebuyStep rules soN prior st r).maps.wins p =
      st.maps.wins p +
        (if normName r.buyer = p ∧ normName r.winner = p then 1 else 0) := by
  by_cases hc : normName r.buyer = p ∧ normName r.winner = p
  · rw [if_pos hc]
    simp only [rebuyStep]
    have hno : ¬(normName r.buyer = "" ∨ normName r.winner = "") := by
      rintro (h | h)
      · exact hp (hc.1.symm.trans h)
      · exact hp (hc.2.symm.trans h)
    rw [if_neg hno]
    have hwb : normName r.winner = normName r.buyer := hc.2.trans hc.1.symm
    split_ifs <;>
      first
        | exact absurd hwb (by assumption)
        | (dsimp only
           rw [hc.1, mapAdd_apply_self 1 hp])
  · rw [if_neg hc, add_zero]
    by_cases hwb : normName r.winner = normName r.buyer
    · have hq : p ≠ normName r.buyer := by
        intro h
        exact hc ⟨h.symm, hwb.symm ▸ h.symm⟩
      exact (rebuyStep_other rules soN prior st r p hq).2
    · rw [rebuyStep_skip rules soN prior st r hwb]

theorem rebuyStep_nowin (rules : RulesConfig) (soN : Int) (prior : String → Nat)
    (st : RebuyState) (r : RebuyMatch) (q : String)
    (hc : ¬(normName r.buyer = q ∧ normName r.winner = q)) :
    (rebuyStep rules soN prior st r).maps.pts q = st.maps.pts q ∧
      (rebuyStep rules soN prior st r).maps.wins q = st.maps.wins q := by
  by_cases hwb : normName r.winner = normName r.buyer
  · have hq : q ≠ normName r.buyer := by
      intro h
      exact hc ⟨h.symm, hwb.symm ▸ h.symm⟩
    exact rebuyStep_other rules soN prior st r q hq
  · rw [rebuyStep_skip rules soN prior st r hwb]
    exact ⟨rfl, rfl⟩

theorem rebuyFold_bonus (rules : RulesConfig) (soN : Int) (prior : String → Nat)
    (l : List RebuyMatch) (st : RebuyState) :
    (l.foldl (rebuyStep rules soN prior) st).maps.bonus = st.maps.bonus := by
  induction l generalizing st with
  | nil => rfl
  | cons r l ih =>
      rw [List.foldl_cons, ih, rebuyStep_bonus]

theorem rebuyFold_wins (rules : RulesConfig) (soN : Int) (prior : String → Nat)
    (l : List RebuyMatch) (st : RebuyState) (p : String) (hp : p ≠ "") :
    (l.foldl (rebuyStep rules soN prior) st).maps.wins p =
      st.maps.wins p +
        ((l.filter fun r => normName r.buyer = p ∧ normName r.winner = p).length : Int) := by
  induction l generalizing st with
  | nil => simp
  | cons r l ih =>
      rw [List.foldl_cons, ih, rebuyStep_wins rules soN prior st r p hp, List.filter_cons]
      by_cases hc : normName r.buyer = p ∧ normName r.winner = p
      · simp [hc]
        ring
      · simp [hc]

theorem rebuyFold_local (rules : RulesConfig) (soN : Int) (prior : String → Nat)
    (l : List RebuyMatch) (st : RebuyState) (b : String) (hb : b ≠ "") :
    (l.foldl (rebuyStep rules soN prior) st).localCompleted b =
      st.localCompleted b +
        (l.filter fun r => normName r.buyer = b ∧ normName r.winner ≠ "").length := by
  induction l generalizing st with
  | nil => simp
  | cons r l ih =>
      rw [List.foldl_cons, ih, rebuyStep_local rules soN prior st r b hb, List.filter_cons]
      by_cases hc : normName r.buyer = b ∧ normName r.winner ≠ ""
      · simp [hc]
        ring
      · simp [hc]

theorem rebuyFold_exclusive (rules : RulesConfig) (soN : Int) (prior : String → Nat)
    (l : List RebuyMatch) (st : RebuyState) (q : String)
    (h : (l.foldl (rebuyStep rules soN prior) st).maps.pts q ≠ st.maps.pts q ∨
      (l.foldl (rebuyStep rules soN prior) st).maps.wins q ≠ st.maps.wins q) :
    ∃ r ∈ l, normName r.buyer = q ∧ normName r.winner = q := by
  induction l generalizing st with
  | nil =>
      rcases h with h | h <;> exact absurd rfl h
  | cons r l ih =>
      rw [List.foldl_cons] at h
      by_cases hc : normName r.buyer = q ∧ normName r.winner = q
      · exact ⟨r, List.mem_cons_self r l, hc⟩
      · obtain ⟨h1, h2⟩ := rebuyStep_nowin rules soN prior st r q hc
        have h' : (l.foldl (rebuyStep rules soN prior) (rebuyStep rules soN prior st r)).maps.pts q ≠
              (rebuyStep rules soN prior st r).maps.pts q ∨
            (l.foldl (rebuyStep rules soN prior) (rebuyStep rules soN prior st r)).maps.wins q ≠
              (rebuyStep rules soN prior st r).maps.wins q := by
          rcases h with h | h
          · exact Or.inl (fun he => h (he.trans h1))
          · exact Or.inr (fun he => h (he.trans h2))
        obtain ⟨r', hr', hc'⟩ := ih (rebuyStep rules soN prior st r) h'
        exact ⟨r', List.mem_cons_of_mem r hr', hc'⟩


theorem applyMatch_pts (rules : RulesConfig) (st : PtsMaps) (m : CoreMatch)
    (p : String) (hp : p ≠ "") :
    (applyMatch rules st m).pts p = st.pts p +
      (if normName m.winner = p then
        (if m.phase = Phase.PFINAL then rules.smallFinalPoints else rules.winPoints) +
          (if m.checkout100 = true then rules.checkoutBonusPoints else 0)
      else 0) := by
  simp only [applyMatch]
  by_cases hw : normName m.winner = ""
  · rw [if_pos hw, if_neg (fun h => hp (h.symm.trans hw)), add_zero]
  · rw [if_neg hw]
    by_cases hco : m.checkout100 = true
    · rw [if_pos hco]
      dsimp only
      by_cases hwp : normName m.winner = p
      · rw [if_pos hwp, if_pos hco, hwp, mapAdd_apply_self _ hp, mapAdd_apply_self _ hp]
        ring
      · rw [if_neg hwp, mapAdd_apply_ne _ (fun h => hwp h.symm),
          mapAdd_apply_ne _ (fun h => hwp h.symm), add_zero]
    · rw [if_neg hco]
      dsimp only
      by_cases hwp : normName m.winner = p
      · rw [if_pos hwp, if_neg hco, hwp, mapAdd_apply_self _ hp, add_zero]
      · rw [if_neg hwp, mapAdd_apply_ne _ (fun h => hwp h.symm), add_zero]

theorem matchFold_pts (rules : RulesConfig) (l : List CoreMatch) (st : PtsMaps)
    (p : String) (hp : p ≠ "") :
    (l.foldl (applyMatch rules) st).pts p = st.pts p +
      ((l.filter fun m => normName m.winner = p ∧ m.phase = Phase.PFINAL).length : Int) *
          rules.smallFinalPoints +
        ((l.filter fun m => normName m.winner = p ∧ ¬m.phase = Phase.PFINAL).length : Int) *
          rules.winPoints +
        ((l.filter fun m => normName m.winner = p ∧ m.checkout100 = true).length : Int) *
          rules.checkoutBonusPoints := by
  induction l generalizing st with
  | nil => simp
  | cons m l ih =>
      rw [List.foldl_cons, ih, applyMatch_pts rules st m p hp, List.filter_cons,
        List.filter_cons, List.filter_cons]
      by_cases h1 : normName m.winner = p <;>
        by_cases h2 : m.phase = Phase.PFINAL <;>
          by_cases h3 : m.checkout100 = true <;>
            · simp [h1, h2, h3]
              try push_cast
              try ring

theorem mapAdd_sub (f g : String → Int) (k : String) (d : Int) (p : String) :
    mapAdd f k d p - f p = mapAdd g k d p - g p := by
  unfold mapAdd
  by_cases hk : k = ""
  · simp [hk]
  · by_cases hp : p = k <;> simp [hk, hp]

theorem rebuyStep_pts_shift (rules : RulesConfig) (soN : Int) (prior : String → Nat)
    (r : RebuyMatch) (p : String) (st1 st2 : RebuyState)
    (hloc : st1.localCompleted = st2.localCompleted) :
    (rebuyStep rules soN prior st1 r).maps.pts p - st1.maps.pts p =
        (rebuyStep rules soN prior st2 r).maps.pts p - st2.maps.pts p ∧
      (rebuyStep rules soN prior st1 r).localCompleted =
        (rebuyStep rules soN prior st2 r).localCompleted := by
  constructor
  · simp only [rebuyStep, hloc]
    split_ifs <;> first | exact mapAdd_sub _ _ _ _ _ | simp
  · simp only [rebuyStep, hloc]
    split_ifs <;> first | exact hloc | rfl

theorem rebuyFold_pts_shift (rules : RulesConfig) (soN : Int) (prior : String → Nat)
    (l : List RebuyMatch) (p : String) :
    ∀ st1 st2 : RebuyState, st1.localCompleted = st2.localCompleted →
      (l.foldl (rebuyStep rules soN prior) st1).maps.pts p - st1.maps.pts p =
        (l.foldl (rebuyStep rules soN prior) st2).maps.pts p - st2.maps.pts p := by
  induction l with
  | nil =>
      intro st1 st2 _
      simp
  | cons r l ih =>
      intro st1 st2 hloc
      rw [List.foldl_cons, List.foldl_cons]
      obtain ⟨hd, hl⟩ := rebuyStep_pts_shift rules soN prior r p st1 st2 hloc
      have hih := ih (rebuyStep rules soN prior st1 r) (rebuyStep rules soN prior st2 r) hl
      omega

theorem filter_strip_length (l : List CoreMatch) (q : CoreMatch → Bool)
    (hq : ∀ m, q (stripCheckout m) = q m) :
    ((l.map stripCheckout).filter q).length = (l.filter q).length := by
  rw [List.filter_map, List.length_map]
  exact congrArg List.length (List.filter_congr (fun m _ => hq m))

/-! ### Claims -/

/-- C1 (counterexample): the source credits the checkout bonus point and
the bonus count to the recorded winner (BOB, whose points are base 2
plus bonus 1), while the spec-side per-side attribution credits the side
that produced the checkout (side A, ALICE, who gets the bonus point
while BOB gets only the base 2); on a match won by `b` with the checkout
produced by side A the two disagree on both maps, so neither the bonus
point nor the bonus count is credited to whichever side actually
produced the checkout. -/
theorem c1_counterexample :
    (computePointsFromMatches [exM1] [] none none STANDARD_RULES).bonus "ALICE" = 0 ∧
      (computePointsFromMatches [exM1] [] none none STANDARD_RULES).bonus "BOB" = 1 ∧
      (computePointsFromMatches [exM1] [] none none STANDARD_RULES).pts "ALICE" = 0 ∧
      (computePointsFromMatches [exM1] [] none none STANDARD_RULES).pts "BOB" = 3 ∧
      (specPointsCheckout STANDARD_RULES [{ core := exM1, checkoutBy := some Side.A }]).bonus
          "ALICE" = 1 ∧
      (specPointsCheckout STANDARD_RULES [{ core := exM1, checkoutBy := some Side.A }]).bonus
          "BOB" = 0 ∧
      (specPointsCheckout STANDARD_RULES [{ core := exM1, checkoutBy := some Side.A }]).pts
          "ALICE" = 1 ∧
      (specPointsCheckout STANDARD_RULES [{ core := exM1, checkoutBy := some Side.A }]).pts
          "BOB" = 2 := by
  refine ⟨?_, ?_, ?_, ?_, ?_, ?_, ?_, ?_⟩ <;> decide

/-- C1 (amended): for every input and every non-empty player name, the
bonus count returned by `computePointsFromMatches` equals the number of
matches that player won with the `checkout100` flag set, and the
player's points exceed the same run on checkout-stripped matches by
exactly `rules.checkoutBonusPoints` per such match — both the checkout
bonus point and the bonus-count increment are credited unconditionally
to the recorded winner, the match record carrying no per-side
attribution. -/
theorem c1_checkout_bonus_to_winner (rules : RulesConfig) (matchList : List CoreMatch)
    (rebuys : List RebuyMatch) (soNopt : Option Int) (season : Option Season)
    (p : String) (hp : p ≠ "") :
    (computePointsFromMatches matchList rebuys soNopt season rules).bonus p =
        ((matchList.filter fun m => normName m.winner = p ∧ m.checkout100 = true).length : Int) ∧
      (computePointsFromMatches matchList rebuys soNopt season rules).pts p =
        (computePointsFromMatches (matchList.map stripCheckout) rebuys soNopt season rules).pts
            p +
          ((matchList.filter fun m =>
              normName m.winner = p ∧ m.checkout100 = true).length : Int) *
            rules.checkoutBonusPoints := by
  constructor
  · unfold computePointsFromMatches
    rw [rebuyFold_bonus, matchFold_bonus rules matchList PtsMaps.zero p hp]
    simp [PtsMaps.zero]
  · have e1 : (computePointsFromMatches matchList rebuys soNopt season rules).pts p =
        ((sortedRebuys rebuys).foldl
            (rebuyStep rules (soNopt.getD 0) (priorCompletedCount (soNopt.getD 0) season))
            { maps := matchList.foldl (applyMatch rules) PtsMaps.zero,
              localCompleted := fun _ => 0 }).maps.pts p := rfl
    have e2 : (computePointsFromMatches (matchList.map stripCheckout) rebuys soNopt season
          rules).pts p =
        ((sortedRebuys rebuys).foldl
            (rebuyStep rules (soNopt.getD 0) (priorCompletedCount (soNopt.getD 0) season))
            { maps := (matchList.map stripCheckout).foldl (applyMatch rules) PtsMaps.zero,
              localCompleted := fun _ => 0 }).maps.pts p := rfl
    have hshift := rebuyFold_pts_shift rules (soNopt.getD 0)
      (priorCompletedCount (soNopt.getD 0) season) (sortedRebuys rebuys) p
      { maps := matchList.foldl (applyMatch rules) PtsMaps.zero, localCompleted := fun _ => 0 }
      { maps := (matchList.map stripCheckout).foldl (applyMatch rules) PtsMaps.zero,
        localCompleted := fun _ => 0 }
      rfl
    have hA := matchFold_pts rules matchList PtsMaps.zero p hp
    have hB := matchFold_pts rules (matchList.map stripCheckout) PtsMaps.zero p hp
    have hs1 : ((matchList.map stripCheckout).filter fun m =>
        normName m.winner = p ∧ m.phase = Phase.PFINAL).length =
          (matchList.filter fun m => normName m.winner = p ∧ m.phase = Phase.PFINAL).length :=
      filter_strip_length matchList _ (fun m => rfl)
    have hs2 : ((matchList.map stripCheckout).filter fun m =>
        normName m.winner = p ∧ ¬m.phase = Phase.PFINAL).length =
          (matchList.filter fun m => normName m.winner = p ∧ ¬m.phase = Phase.PFINAL).length :=
      filter_strip_length matchList _ (fun m => rfl)
    have hs3 : ∀ ml : List CoreMatch, ((ml.map stripCheckout).filter fun m =>
        normName m.winner = p ∧ m.checkout100 = true).length = 0 := by
      intro ml
      induction ml with
      | nil => rfl
      | cons m l ih =>
          simp only [List.map_cons, List.filter_cons, stripCheckout]
          simpa using ih
    rw [hs1, hs2, hs3 matchList] at hB
    rw [e1, e2]
    have hAB : (matchList.foldl (applyMatch rules) PtsMaps.zero).pts p =
        ((matchList.map stripCheckout).foldl (applyMatch rules) PtsMaps.zero).pts p +
          ((matchList.filter fun m =>
              normName m.winner = p ∧ m.checkout100 = true).length : Int) *
            rules.checkoutBonusPoints := by
      rw [hA, hB]
      push_cast
      ring
    have hshift2 :
        ((sortedRebuys rebuys).foldl
              (rebuyStep rules (soNopt.getD 0) (priorCompletedCount (soNopt.getD 0) season))
              { maps := matchList.foldl (applyMatch rules) PtsMaps.zero,
                localCompleted := fun _ => 0 }).maps.pts p -
            (matchList.foldl (applyMatch rules) PtsMaps.zero).pts p =
          ((sortedRebuys rebuys).foldl
              (rebuyStep rules (soNopt.getD 0) (priorCompletedCount (soNopt.getD 0) season))
              { maps := (matchList.map stripCheckout).foldl (applyMatch rules) PtsMaps.zero,
                localCompleted := fun _ => 0 }).maps.pts p -
            ((matchList.map stripCheckout).foldl (applyMatch rules) PtsMaps.zero).pts p :=
      hshift
    linarith [hshift2, hAB]

/-- C1 (witness): the amended statement at the concrete checkout match,
for both the bonus count and the points credited to the winner BOB. -/
theorem c1_checkout_bonus_to_winner_witness :
    "BOB" ≠ "" ∧
      ((computePointsFromMatches [exM1] [] none none STANDARD_RULES).bonus "BOB" =
          (([exM1].filter fun m =>
            normName m.winner = "BOB" ∧ m.checkout100 = true).length : Int) ∧
        (computePointsFromMatches [exM1] [] none none STANDARD_RULES).pts "BOB" =
          (computePointsFromMatches ([exM1].map stripCheckout) [] none none
                STANDARD_RULES).pts "BOB" +
            (([exM1].filter fun m =>
                normName m.winner = "BOB" ∧ m.checkout100 = true).length : Int) *
              STANDARD_RULES.checkoutBonusPoints) :=
  ⟨by decide, c1_checkout_bonus_to_winner STANDARD_RULES [exM1] [] none none "BOB" (by decide)⟩

/-- The soirée-filtered head-to-head scan never reads the rebuys: a
season whose soirées keep their matches but drop all rebuys produces the
same matrix. -/
theorem h2h_ignores_rebuys (season : Season) :
    computeHeadToHead
        { players := season.players,
          soirees := season.soirees.map fun s => { s with rebuys := [] } } =
      computeHeadToHead season := by
  simp only [computeHeadToHead, List.foldl_map]

/-- C10: for every input of the points engine and every non-empty player
name, the wins count equals the number of matches won plus the number of
rebuys won by that player as buyer — a winning buyer's rebuy adds one
win in every soirée-number regime; and the head-to-head matrix is
unchanged when every rebuy is dropped. -/
theorem c10_rebuy_wins_and_h2h (rules : RulesConfig) (matchList : List CoreMatch)
    (rebuys : List RebuyMatch) (soNopt : Option Int) (season : Option Season)
    (p : String) (hp : p ≠ "") :
    (computePointsFromMatches matchList rebuys soNopt season rules).wins p =
        ((matchList.filter fun m => normName m.winner = p).length : Int) +
          ((rebuys.filter fun r => normName r.buyer = p ∧ normName r.winner = p).length : Int) ∧
      ∀ se : Season,
        computeHeadToHead
            { players := se.players, soirees := se.soirees.map fun s => { s with rebuys := [] } } =
          computeHeadToHead se := by
  constructor
  · have e1 : (computePointsFromMatches matchList rebuys soNopt season rules).wins p =
        ((sortedRebuys rebuys).foldl
            (rebuyStep rules (soNopt.getD 0) (priorCompletedCount (soNopt.getD 0) season))
            { maps := matchList.foldl (applyMatch rules) PtsMaps.zero,
              localCompleted := fun _ => 0 }).maps.wins p := rfl
    rw [e1,
      rebuyFold_wins rules (soNopt.getD 0) (priorCompletedCount (soNopt.getD 0) season)
        (sortedRebuys rebuys)
        { maps := matchList.foldl (applyMatch rules) PtsMaps.zero,
          localCompleted := fun _ => 0 } p hp,
      matchFold_wins rules matchList PtsMaps.zero p hp]
    have hperm : List.Perm
        ((sortedRebuys rebuys).filter fun r => normName r.buyer = p ∧ normName r.winner = p)
        (rebuys.filter fun r => normName r.buyer = p ∧ normName r.winner = p) :=
      (List.perm_insertionSort _ rebuys).filter _
    rw [hperm.length_eq]
    simp [PtsMaps.zero]
  · exact h2h_ignores_rebuys

/-- C10 (witness): the wins decomposition at a concrete input (CARA wins
one match-free rebuy) and the head-to-head rebuy independence at the
example season. -/
theorem c10_rebuy_wins_and_h2h_witness :
    "CARA" ≠ "" ∧
      (computePointsFromMatches [exM1] [exR1, exR2] none none STANDARD_RULES).wins "CARA" =
          (([exM1].filter fun m => normName m.winner = "CARA").length : Int) +
            (([exR1, exR2].filter fun r =>
              normName r.buyer = "CARA" ∧ normName r.winner = "CARA").length : Int) ∧
        computeHeadToHead
            { players := exSeason.players,
              soirees := exSeason.soirees.map fun s => { s with rebuys := [] } } =
          computeHeadToHead exSeason :=
  ⟨by decide,
    (c10_rebuy_wins_and_h2h STANDARD_RULES [exM1] [exR1, exR2] none none "CARA" (by decide)).1,
    (c10_rebuy_wins_and_h2h STANDARD_RULES [exM1] [exR1, exR2] none none "CARA" (by decide)).2
      exSeason⟩

/-- C3: only a rebuy won by its buyer can move the points or wins maps,
and it can only move the buyer's entry: (i) any player whose points or
wins differ from the rebuy-free run is the buyer and winner of some
rebuy in the list; (ii) a rebuy whose winner differs from its buyer (in
particular one won by the opponent) leaves the accumulators unchanged at
its processing step; (iii) an undecided rebuy is a complete no-op. -/
theorem c3_rebuy_exclusivity (rules : RulesConfig) (matchList : List CoreMatch)
    (rebuys : List RebuyMatch) (soNopt : Option Int) (season : Option Season) :
    (∀ q,
        ((computePointsFromMatches matchList rebuys soNopt season rules).pts q ≠
            (computePointsFromMatches matchList [] soNopt season rules).pts q ∨
          (computePointsFromMatches matchList rebuys soNopt season rules).wins q ≠
            (computePointsFromMatches matchList [] soNopt season rules).wins q) →
          ∃ r ∈ rebuys, normName r.buyer = q ∧ normName r.winner = q) ∧
      (∀ (soN : Int) (prior : String → Nat) (st : RebuyState) (r : RebuyMatch),
          normName r.winner ≠ normName r.buyer →
            (rebuyStep rules soN prior st r).maps = st.maps) ∧
      (∀ (soN : Int) (prior : String → Nat) (st : RebuyState) (r : RebuyMatch),
          normName r.winner = "" → rebuyStep rules soN prior st r = st) := by
  refine ⟨?_, ?_, ?_⟩
  · intro q hq
    have e0 : computePointsFromMatches matchList [] soNopt season rules =
        matchList.foldl (applyMatch rules) PtsMaps.zero := rfl
    have e1 : computePointsFromMatches matchList rebuys soNopt season rules =
        ((sortedRebuys rebuys).foldl
            (rebuyStep rules (soNopt.getD 0) (priorCompletedCount (soNopt.getD 0) season))
            { maps := matchList.foldl (applyMatch rules) PtsMaps.zero,
              localCompleted := fun _ => 0 }).maps := rfl
    rw [e0, e1] at hq
    obtain ⟨r, hr, hc⟩ := rebuyFold_exclusive rules (soNopt.getD 0)
      (priorCompletedCount (soNopt.getD 0) season) (sortedRebuys rebuys)
      { maps := matchList.foldl (applyMatch rules) PtsMaps.zero, localCompleted := fun _ => 0 }
      q hq
    exact ⟨r, (List.perm_insertionSort _ rebuys).mem_iff.mp hr, hc⟩
  · intro soN prior st r h
    exact rebuyStep_skip rules soN prior st r h
  · intro soN prior st r h
    exact rebuyStep_undecided rules soN prior st r h

/-- C3 (witness): at a concrete input, CARA's points move only because
CARA won a rebuy as buyer; a buyer-lost rebuy step and an undecided
rebuy step change nothing. -/
theorem c3_rebuy_exclusivity_witness :
    ((computePointsFromMatches [] [exR1] none none STANDARD_RULES).pts "CARA" ≠
        (computePointsFromMatches [] [] none none STANDARD_RULES).pts "CARA" ∨
      (computePointsFromMatches [] [exR1] none none STANDARD_RULES).wins "CARA" ≠
        (computePointsFromMatches [] [] none none STANDARD_RULES).wins "CARA") ∧
      (∃ r ∈ [exR1], normName r.buyer = "CARA" ∧ normName r.winner = "CARA") ∧
      normName exR2.winner ≠ normName exR2.buyer ∧
      (rebuyStep STANDARD_RULES 1 (fun _ => 0) exState0 exR2).maps = exState0.maps ∧
      normName exR3.winner = "" ∧
      rebuyStep STANDARD_RULES 1 (fun _ => 0) exState0 exR3 = exState0 :=
  ⟨by decide,
    (c3_rebuy_exclusivity STANDARD_RULES [] [exR1] none none).1 "CARA" (by decide),
    by decide,
    (c3_rebuy_exclusivity STANDARD_RULES [] [exR1] none none).2.1 1 (fun _ => 0) exState0 exR2
      (by decide),
    by decide,
    (c3_rebuy_exclusivity STANDARD_RULES [] [exR1] none none).2.2 1 (fun _ => 0) exState0 exR3
      (by decide)⟩

/-- On a winning rebuy (`winner = buyer`, both non-empty) in the `soN ≥ 3`
regime, the step credits the buyer with the first-win points exactly when
the prior-plus-local completed count is zero, and the next-win points
otherwise. -/
theorem rebuyStep_award (rules : RulesConfig) (soN : Int) (prior : String → Nat)
    (st : RebuyState) (r : RebuyMatch) (h3 : 3 ≤ soN)
    (hb : normName r.buyer ≠ "")
    (hw : normName r.winner = normName r.buyer) :
    (rebuyStep rules soN prior st r).maps.pts (normName r.buyer) =
      st.maps.pts (normName r.buyer) +
        (if prior (normName r.buyer) + st.localCompleted (normName r.buyer) = 0
          then rules.rebuyFirstWinPointsS3Plus else rules.rebuyNextWinPointsS3Plus) := by
  simp only [rebuyStep]
  have hno : ¬(normName r.buyer = "" ∨ normName r.winner = "") := by
    rintro (h | h)
    · exact hb h
    · exact hb (hw ▸ h)
  rw [if_neg hno, if_neg (by omega : ¬(0 < soN ∧ soN ≤ 2)), if_pos h3, if_pos hw]
  dsimp only
  by_cases hz : prior (normName r.buyer) + st.localCompleted (normName r.buyer) = 0
  · rw [if_pos hz, mapAdd_apply_self _ hb]
  · rw [if_neg hz, mapAdd_apply_self _ hb]

/-- C2: in the `soN ≥ 3` regime the points engine awards
`rebuyFirstWinPointsS3Plus` to a winning rebuy exactly when the buyer's
count of decided rebuys — those of the season's soirées with strictly
smaller number (`priorCompletedCount`, which scans the whole season and
is not reset per soirée) plus the decided rebuys processed earlier in
the current call (the prefix of the `createdAt`-sorted list) — is zero,
and `rebuyNextWinPointsS3Plus` to every later winning rebuy; the first
conjunct ties the per-prefix run state to `computePointsFromMatches`
itself. -/
theorem c2_rebuy_progression (rules : RulesConfig) (season : Season) (soN : Int)
    (matchList : List CoreMatch) (rebuys : List RebuyMatch) (i : Nat) (b : String)
    (h3 : 3 ≤ soN) (hi : i < (sortedRebuys rebuys).length)
    (hbdef : b = normName ((sortedRebuys rebuys).getD i default).buyer)
    (hb : b ≠ "")
    (hw : normName ((sortedRebuys rebuys).getD i default).winner = b) :
    computePointsFromMatches matchList rebuys (some soN) (some season) rules =
        (rebuyRunState rules soN season matchList (sortedRebuys rebuys)).maps ∧
      (rebuyRunState rules soN season matchList ((sortedRebuys rebuys).take (i + 1))).maps.pts b =
        (rebuyRunState rules soN season matchList ((sortedRebuys rebuys).take i)).maps.pts b +
          (if priorCompletedCount soN (some season) b +
              (((sortedRebuys rebuys).take i).filter fun x =>
                normName x.buyer = b ∧ normName x.winner ≠ "").length = 0
            then rules.rebuyFirstWinPointsS3Plus else rules.rebuyNextWinPointsS3Plus) := by
  constructor
  · rfl
  · have hgetd : (sortedRebuys rebuys)[i]? = some ((sortedRebuys rebuys).getD i default) := by
      rw [List.getElem?_eq_getElem hi, List.getD_eq_getElem _ _ hi]
    have htake : (sortedRebuys rebuys).take (i + 1) =
        (sortedRebuys rebuys).take i ++ [(sortedRebuys rebuys).getD i default] := by
      rw [List.take_succ, hgetd]
      rfl
    rw [htake]
    unfold rebuyRunState
    rw [List.foldl_append, List.foldl_cons, List.foldl_nil]
    rw [hbdef] at hb hw ⊢
    rw [rebuyStep_award rules soN (priorCompletedCount soN (some season)) _ _ h3 hb hw]
    have hloc := rebuyFold_local rules soN (priorCompletedCount soN (some season))
      ((sortedRebuys rebuys).take i)
      { maps := matchList.foldl (applyMatch rules) PtsMaps.zero, localCompleted := fun _ => 0 }
      (normName ((sortedRebuys rebuys).getD i default).buyer) hb
    rw [hloc]
    simp

/-- C2 (witness): the progression equation at the example season, where
CARA's winning rebuy of soirée 3 is processed after one decided prior
rebuy of soirée 1 and therefore earns the next-win points. -/
theorem c2_rebuy_progression_witness :
    (3 : Int) ≤ 3 ∧ 2 < (sortedRebuys exSoiree3.rebuys).length ∧
      "CARA" = normName ((sortedRebuys exSoiree3.rebuys).getD 2 default).buyer ∧
      "CARA" ≠ "" ∧
      normName ((sortedRebuys exSoiree3.rebuys).getD 2 default).winner = "CARA" ∧
      (computePointsFromMatches [] exSoiree3.rebuys (some 3) (some exSeason) STANDARD_RULES =
          (rebuyRunState STANDARD_RULES 3 exSeason [] (sortedRebuys exSoiree3.rebuys)).maps ∧
        (rebuyRunState STANDARD_RULES 3 exSeason []
            ((sortedRebuys exSoiree3.rebuys).take 3)).maps.pts "CARA" =
          (rebuyRunState STANDARD_RULES 3 exSeason []
              ((sortedRebuys exSoiree3.rebuys).take 2)).maps.pts "CARA" +
            (if priorCompletedCount 3 (some exSeason) "CARA" +
                (((sortedRebuys exSoiree3.rebuys).take 2).filter fun x =>
                  normName x.buyer = "CARA" ∧ normName x.winner ≠ "").length = 0
              then STANDARD_RULES.rebuyFirstWinPointsS3Plus
              else STANDARD_RULES.rebuyNextWinPointsS3Plus)) :=
  ⟨by decide, by decide, by decide, by decide, by decide,
    c2_rebuy_progression STANDARD_RULES exSeason 3 [] exSoiree3.rebuys 2 "CARA"
      (by decide) (by decide) (by decide) (by decide) (by decide)⟩

/-- A player who is never the buyer of any rebuy in the list is untouched
by the rebuy loop (on points and wins). -/
theorem rebuyFold_other_all (rules : RulesConfig) (soN : Int) (prior : String → Nat)
    (l : List RebuyMatch) (st : RebuyState) (q : String)
    (h : ∀ r ∈ l, normName r.buyer ≠ q) :
    (l.foldl (rebuyStep rules soN prior) st).maps.pts q = st.maps.pts q ∧
      (l.foldl (rebuyStep rules soN prior) st).maps.wins q = st.maps.wins q := by
  induction l generalizing st with
  | nil => exact ⟨rfl, rfl⟩
  | cons r l ih =>
      rw [List.foldl_cons]
      have hstep := rebuyStep_other rules soN prior st r q
        (fun hq => h r (List.mem_cons_self r l) hq.symm)
      obtain ⟨h1, h2⟩ := ih (rebuyStep rules soN prior st r)
        (fun r' hr' => h r' (List.mem_cons_of_mem r hr'))
      exact ⟨h1.trans hstep.1, h2.trans hstep.2⟩

/-- A player who never wins a match and never buys a rebuy gets all-zero
entries from the points engine. -/
theorem computePoints_unref (rules : RulesConfig) (matchList : List CoreMatch)
    (rebuys : List RebuyMatch) (soNopt : Option Int) (season : Option Season)
    (p : String)
    (hm : ∀ m ∈ matchList, normName m.winner ≠ p)
    (hr : ∀ r ∈ rebuys, normName r.buyer ≠ p) :
    (computePointsFromMatches matchList rebuys soNopt season rules).pts p = 0 ∧
      (computePointsFromMatches matchList rebuys soNopt season rules).wins p = 0 ∧
      (computePointsFromMatches matchList rebuys soNopt season rules).bonus p = 0 := by
  have e1 : computePointsFromMatches matchList rebuys soNopt season rules =
      ((sortedRebuys rebuys).foldl
          (rebuyStep rules (soNopt.getD 0) (priorCompletedCount (soNopt.getD 0) season))
          { maps := matchList.foldl (applyMatch rules) PtsMaps.zero,
            localCompleted := fun _ => 0 }).maps := rfl
  have hsorted : ∀ r ∈ sortedRebuys rebuys, normName r.buyer ≠ p := fun r hmem =>
    hr r ((List.perm_insertionSort _ rebuys).mem_iff.mp hmem)
  obtain ⟨hm1, hm2, hm3⟩ := matchFold_untouched rules matchList PtsMaps.zero p hm
  obtain ⟨hr1, hr2⟩ := rebuyFold_other_all rules (soNopt.getD 0)
    (priorCompletedCount (soNopt.getD 0) season) (sortedRebuys rebuys)
    { maps := matchList.foldl (applyMatch rules) PtsMaps.zero, localCompleted := fun _ => 0 }
    p hsorted
  have hb := rebuyFold_bonus rules (soNopt.getD 0)
    (priorCompletedCount (soNopt.getD 0) season) (sortedRebuys rebuys)
    { maps := matchList.foldl (applyMatch rules) PtsMaps.zero, localCompleted := fun _ => 0 }
  rw [e1]
  refine ⟨hr1.trans hm1, hr2.trans hm2, ?_⟩
  rw [hb]
  exact hm3

/-- Folding `addSoiree` over soirées in which a player never wins a match
or buys a rebuy leaves that player's totals unchanged. -/
theorem seasonFold_unref (season : Season) (rules : RulesConfig) (l : List Soiree)
    (acc : PtsMaps) (p : String)
    (h : ∀ s ∈ l, (∀ m ∈ s.matchList, normName m.winner ≠ p) ∧
      (∀ r ∈ s.rebuys, normName r.buyer ≠ p)) :
    (l.foldl (addSoiree season rules) acc).pts p = acc.pts p ∧
      (l.foldl (addSoiree season rules) acc).wins p = acc.wins p ∧
      (l.foldl (addSoiree season rules) acc).bonus p = acc.bonus p := by
  induction l generalizing acc with
  | nil => exact ⟨rfl, rfl, rfl⟩
  | cons s l ih =>
      rw [List.foldl_cons]
      obtain ⟨hm, hr⟩ := h s (List.mem_cons_self s l)
      obtain ⟨z1, z2, z3⟩ := computePoints_unref rules s.matchList s.rebuys
        (some s.number) (some season) p hm hr
      have hstep : (addSoiree season rules acc s).pts p = acc.pts p ∧
          (addSoiree season rules acc s).wins p = acc.wins p ∧
          (addSoiree season rules acc s).bonus p = acc.bonus p := by
        simp only [addSoiree]
        rw [z1, z2, z3]
        exact ⟨add_zero _, add_zero _, add_zero _⟩
      obtain ⟨h1, h2, h3⟩ := ih (addSoiree season rules acc s)
        (fun s' hs' => h s' (List.mem_cons_of_mem s hs'))
      exact ⟨h1.trans hstep.1, h2.trans hstep.2.1, h3.trans hstep.2.2⟩

/-- C4: for every season with a duplicate-free roster, the table of
`aggregateSeasonStats` lists the roster names exactly (a permutation,
each exactly once), is sorted by `rowLE` (points descending, wins
descending, name ascending — a deterministic total order), each row
carries that player's season totals, and a player referenced nowhere has
all-zero totals (hence an all-zero row). -/
theorem c4_table_spec (season : Season) (rules : RulesConfig)
    (hnd : season.players.Nodup) :
    ((aggregateSeasonStats season rules).table.map TableRow.name).Perm season.players ∧
      (∀ p ∈ season.players,
        List.count p ((aggregateSeasonStats season rules).table.map TableRow.name) = 1) ∧
      List.Sorted rowLE (aggregateSeasonStats season rules).table ∧
      (∀ row ∈ (aggregateSeasonStats season rules).table,
        row.pts = (seasonMaps season rules).pts row.name ∧
          row.wins = (seasonMaps season rules).wins row.name ∧
          row.bonus = (seasonMaps season rules).bonus row.name) ∧
      (∀ p, p ≠ "" → unreferencedPlayer season p →
        (seasonMaps season rules).pts p = 0 ∧ (seasonMaps season rules).wins p = 0 ∧
          (seasonMaps season rules).bonus p = 0) := by
  have hperm : ((aggregateSeasonStats season rules).table.map TableRow.name).Perm
      season.players := by
    unfold aggregateSeasonStats
    dsimp only
    have h1 := (List.perm_insertionSort rowLE
      (season.players.map fun name =>
        ({ name := name, pts := (seasonMaps season rules).pts name,
           wins := (seasonMaps season rules).wins name,
           bonus := (seasonMaps season rules).bonus name } : TableRow))).map TableRow.name
    have hcomp : (TableRow.name ∘ fun name =>
        ({ name := name, pts := (seasonMaps season rules).pts name,
           wins := (seasonMaps season rules).wins name,
           bonus := (seasonMaps season rules).bonus name } : TableRow)) = id := rfl
    rw [List.map_map, hcomp, List.map_id] at h1
    exact h1
  refine ⟨hperm, ?_, ?_, ?_, ?_⟩
  · intro p hp
    rw [hperm.count_eq p]
    exact List.count_eq_one_of_mem hnd hp
  · haveI : IsTotal TableRow rowLE := ⟨rowLE_total⟩
    haveI : IsTrans TableRow rowLE := ⟨rowLE_trans⟩
    exact List.sorted_insertionSort rowLE _
  · intro row hrow
    have hmem : row ∈ season.players.map fun name =>
        ({ name := name, pts := (seasonMaps season rules).pts name,
           wins := (seasonMaps season rules).wins name,
           bonus := (seasonMaps season rules).bonus name } : TableRow) :=
      (List.perm_insertionSort rowLE _).mem_iff.mp hrow
    obtain ⟨n, _, hn⟩ := List.mem_map.mp hmem
    rw [← hn]
    exact ⟨rfl, rfl, rfl⟩
  · intro p _ hun
    unfold seasonMaps
    have h := seasonFold_unref season rules season.soirees PtsMaps.zero p ?_
    · exact h
    · intro s hs
      obtain ⟨hm, hr, -, -⟩ := hun s hs
      exact ⟨fun m hmm => (hm m hmm).2.2, fun r hrr => (hr r hrr).1⟩

/-- C4 (witness): the table properties at the example season; the player
EVE is referenced nowhere and has all-zero totals. -/
theorem c4_table_spec_witness :
    exSeason.players.Nodup ∧
      ((aggregateSeasonStats exSeason STANDARD_RULES).table.map TableRow.name).Perm
          exSeason.players ∧
        ("EVE" ≠ "" ∧ unreferencedPlayer exSeason "EVE" ∧
          (seasonMaps exSeason STANDARD_RULES).pts "EVE" = 0 ∧
            (seasonMaps exSeason STANDARD_RULES).wins "EVE" = 0 ∧
            (seasonMaps exSeason STANDARD_RULES).bonus "EVE" = 0) :=
  ⟨by decide,
    (c4_table_spec exSeason STANDARD_RULES (by decide)).1,
    ⟨by decide, by decide,
      (c4_table_spec exSeason STANDARD_RULES (by decide)).2.2.2.2 "EVE" (by decide) (by decide)⟩⟩

/-- C7: when the next soirée number is at least 3, the seeded pools do
not depend on the shuffle at all and are exactly the standings split by
alternating rank: positions 1,3,5,7 of the season table to pool A and
positions 2,4,6,8 to pool B. -/
theorem c7_seeding_from_standings (season : Season) (rules : RulesConfig)
    (sh sh2 ranked : List String) (mx : Int)
    (hmx : (season.soirees.map Soiree.number).max? = some mx)
    (h3 : 3 ≤ mx + 1)
    (hranked : ranked = (aggregateSeasonStats season rules).table.map TableRow.name) :
    startNewSoireePools season rules sh = startNewSoireePools season rules sh2 ∧
      startNewSoireePools season rules sh =
        some
          { A := ([ranked.get? 0, ranked.get? 2, ranked.get? 4, ranked.get? 6].filterMap id).filter
              (fun p => p ≠ "")
            B := ([ranked.get? 1, ranked.get? 3, ranked.get? 5, ranked.get? 7].filterMap id).filter
              (fun p => p ≠ "") } := by
  subst hranked
  unfold startNewSoireePools
  rw [hmx]
  have hlt : ¬mx + 1 ≤ 2 := by omega
  simp only [if_neg hlt]
  exact ⟨trivial, trivial⟩

/-- C7 (witness): deterministic standings-based seeding at the example
season, whose next soirée number is 4. -/
theorem c7_seeding_from_standings_witness :
    (exSeason.soirees.map Soiree.number).max? = some 3 ∧ (3 : Int) ≤ 3 + 1 ∧
      exRanked = (aggregateSeasonStats exSeason STANDARD_RULES).table.map TableRow.name ∧
      (startNewSoireePools exSeason STANDARD_RULES ["W", "X", "Y", "Z"] =
          startNewSoireePools exSeason STANDARD_RULES [] ∧
        startNewSoireePools exSeason STANDARD_RULES ["W", "X", "Y", "Z"] =
          some
            { A := ([exRanked.get? 0, exRanked.get? 2, exRanked.get? 4,
                exRanked.get? 6].filterMap id).filter (fun p => p ≠ "")
              B := ([exRanked.get? 1, exRanked.get? 3, exRanked.get? 5,
                exRanked.get? 7].filterMap id).filter (fun p => p ≠ "") }) :=
  ⟨by decide, by decide, by decide,
    c7_seeding_from_standings exSeason STANDARD_RULES ["W", "X", "Y", "Z"] [] exRanked 3
      (by decide) (by decide) (by decide)⟩

/-- The provisional-fallback condition of `currentPodium` holds exactly
when the spec's finalized-podium condition fails. -/
theorem podium_not_decided_iff (so : Soiree) :
    (finalWinnerName so = "" ∨ finalSecondName so = "" ∨ pfinalWinnerName so = "") ↔
      ¬podiumDecided so := by
  constructor
  · rintro (h | h | h) hd
    · exact hd.1 h
    · obtain ⟨hw, hor, hp⟩ := hd
      unfold finalSecondName at h
      rcases hor with ⟨ha, hb⟩ | ⟨hb, ha⟩
      · rw [if_pos ⟨hw, Or.inl ha⟩, if_pos ha] at h
        exact hb h
      · rw [if_pos ⟨hw, Or.inr hb⟩] at h
        by_cases hab : finalWinnerName so = finalAName so
        · rw [if_pos hab] at h
          exact hw (hb.trans h)
        · rw [if_neg hab] at h
          exact ha h
    · exact hd.2.2 h
  · intro hnd
    by_contra hcon
    push_neg at hcon
    obtain ⟨h1, h2, h3⟩ := hcon
    apply hnd
    refine ⟨h1, ?_, h3⟩
    unfold finalSecondName at h2
    by_cases hc : finalWinnerName so ≠ "" ∧
        (finalWinnerName so = finalAName so ∨ finalWinnerName so = finalBName so)
    · rcases hc.2 with ha | hb
      · rw [if_pos hc, if_pos ha] at h2
        exact Or.inl ⟨ha, h2⟩
      · by_cases hab : finalWinnerName so = finalAName so
        · rw [if_pos hc, if_pos hab] at h2
          exact Or.inl ⟨hab, h2⟩
        · rw [if_pos hc, if_neg hab] at h2
          exact Or.inr ⟨hb, h2⟩
    · rw [if_neg hc] at h2
      exact absurd rfl h2

/-- C5: `currentPodium` is non-provisional exactly when the FINAL has a
winner consistent with its two contestants and the PFINAL has a winner;
in that case the podium is FINAL winner, FINAL loser (the other
contestant), PFINAL winner; otherwise it is provisional and equal to the
top three of the roster ranked by the soirée's points, then wins, then
name. -/
theorem c5_podium_spec (season : Season) (so : Soiree) (rules : RulesConfig) :
    ((currentPodium season so rules).provisional = false ↔ podiumDecided so) ∧
      (podiumDecided so →
        currentPodium season so rules =
            { first := finalWinnerName so, second := finalSecondName so,
              third := pfinalWinnerName so, provisional := false } ∧
          finalSecondName so =
            (if finalWinnerName so = finalAName so then finalBName so else finalAName so)) ∧
      (¬podiumDecided so →
        currentPodium season so rules =
          { first := (((provisionalRows season so rules).get? 0).map RankRow.name).getD ""
            second := (((provisionalRows season so rules).get? 1).map RankRow.name).getD ""
            third := (((provisionalRows season so rules).get? 2).map RankRow.name).getD ""
            provisional := true }) := by
  by_cases hd : podiumDecided so
  · have hcond : ¬(finalWinnerName so = "" ∨ finalSecondName so = "" ∨
        pfinalWinnerName so = "") := fun hc => (podium_not_decided_iff so).mp hc hd
    unfold currentPodium
    rw [if_neg hcond]
    refine ⟨⟨fun _ => hd, fun _ => rfl⟩, fun _ => ⟨rfl, ?_⟩, fun h => absurd hd h⟩
    obtain ⟨hw, hor, -⟩ := hd
    have hor' : finalWinnerName so = finalAName so ∨ finalWinnerName so = finalBName so := by
      rcases hor with ⟨h, -⟩ | ⟨h, -⟩
      · exact Or.inl h
      · exact Or.inr h
    unfold finalSecondName
    rw [if_pos ⟨hw, hor'⟩]
  · have hcond := (podium_not_decided_iff so).mpr hd
    unfold currentPodium
    rw [if_pos hcond]
    refine ⟨⟨?_, fun h => absurd h hd⟩, fun h => absurd h hd, fun _ => rfl⟩
    intro h
    exact absurd h (by simp)

/-- C5 (witness): the decided branch at a fully decided soirée and the
provisional branch at a soirée with no final. -/
theorem c5_podium_spec_witness :
    podiumDecided exSoiree5 ∧
      (currentPodium exSeason2 exSoiree5 STANDARD_RULES =
          { first := finalWinnerName exSoiree5, second := finalSecondName exSoiree5,
            third := pfinalWinnerName exSoiree5, provisional := false } ∧
        finalSecondName exSoiree5 =
          (if finalWinnerName exSoiree5 = finalAName exSoiree5 then finalBName exSoiree5
            else finalAName exSoiree5)) ∧
      ¬podiumDecided exSoiree1 ∧
      currentPodium exSeason exSoiree1 STANDARD_RULES =
        { first := (((provisionalRows exSeason exSoiree1 STANDARD_RULES).get? 0).map
            RankRow.name).getD ""
          second := (((provisionalRows exSeason exSoiree1 STANDARD_RULES).get? 1).map
            RankRow.name).getD ""
          third := (((provisionalRows exSeason exSoiree1 STANDARD_RULES).get? 2).map
            RankRow.name).getD ""
          provisional := true } :=
  ⟨by decide,
    (c5_podium_spec exSeason2 exSoiree5 STANDARD_RULES).2.1 (by decide),
    by decide,
    (c5_podium_spec exSeason exSoiree1 STANDARD_RULES).2.2 (by decide)⟩

/-- C6: with a current soirée selected, `recalcFinalAndPFinal` is a
silent no-op (the season value is returned unchanged, no failure) when
the soirée has fewer than two `DEMI` matches; otherwise it rewrites
exactly the selected soirée, mapping every match through
`recalcUpdateMatch` with the two semi winners and losers; that update
gives the `FINAL` the two semi winners as contestants (both empty unless
both semis are decided), gives the `PFINAL` the two semi losers, keeps a
previously recorded winner only if it equals one of the new contestants
(clearing it otherwise), and leaves every other match unchanged. -/
theorem c6_recalc_final_pfinal (season : Season) (n : Int) (cur : Soiree)
    (hcur : currentSoireeOpt season n = some cur) :
    ((sortedByOrder (cur.matchList.filter fun m => m.phase = Phase.DEMI)).length < 2 →
        recalcFinalAndPFinal season n = season) ∧
      (2 ≤ (sortedByOrder (cur.matchList.filter fun m => m.phase = Phase.DEMI)).length →
        (recalcFinalAndPFinal season n).soirees =
          season.soirees.map fun s =>
            if s.number = cur.number then
              { s with
                  matchList := s.matchList.map
                    (recalcUpdateMatch
                      (normName ((sortedByOrder
                        (cur.matchList.filter fun m => m.phase = Phase.DEMI)).getD 0
                          default).winner)
                      (normName ((sortedByOrder
                        (cur.matchList.filter fun m => m.phase = Phase.DEMI)).getD 1
                          default).winner)
                      (demiLoserOf ((sortedByOrder
                        (cur.matchList.filter fun m => m.phase = Phase.DEMI)).getD 0 default))
                      (demiLoserOf ((sortedByOrder
                        (cur.matchList.filter fun m => m.phase = Phase.DEMI)).getD 1
                          default))) }
            else s) ∧
      (∀ (w1 w2 l1 l2 : String) (m : CoreMatch),
        (m.phase = Phase.FINAL →
          (recalcUpdateMatch w1 w2 l1 l2 m).a = (if w1 ≠ "" ∧ w2 ≠ "" then w1 else "") ∧
            (recalcUpdateMatch w1 w2 l1 l2 m).b = (if w1 ≠ "" ∧ w2 ≠ "" then w2 else "") ∧
            (recalcUpdateMatch w1 w2 l1 l2 m).winner =
              (if m.winner ≠ "" ∧
                  (m.winner = (recalcUpdateMatch w1 w2 l1 l2 m).a ∨
                    m.winner = (recalcUpdateMatch w1 w2 l1 l2 m).b) then m.winner else "")) ∧
          (m.phase = Phase.PFINAL →
            (recalcUpdateMatch w1 w2 l1 l2 m).a = (if l1 ≠ "" ∧ l2 ≠ "" then l1 else "") ∧
              (recalcUpdateMatch w1 w2 l1 l2 m).b = (if l1 ≠ "" ∧ l2 ≠ "" then l2 else "") ∧
              (recalcUpdateMatch w1 w2 l1 l2 m).winner =
                (if m.winner ≠ "" ∧
                    (m.winner = (recalcUpdateMatch w1 w2 l1 l2 m).a ∨
                      m.winner = (recalcUpdateMatch w1 w2 l1 l2 m).b) then m.winner else "")) ∧
          (m.phase ≠ Phase.FINAL → m.phase ≠ Phase.PFINAL →
            recalcUpdateMatch w1 w2 l1 l2 m = m)) := by
  refine ⟨?_, ?_, ?_⟩
  · intro h
    unfold recalcFinalAndPFinal
    rw [hcur]
    dsimp only
    rw [if_pos h]
  · intro h
    unfold recalcFinalAndPFinal
    rw [hcur]
    dsimp only
    rw [if_neg (by omega : ¬(sortedByOrder
      (cur.matchList.filter fun m => m.phase = Phase.DEMI)).length < 2)]
  · intro w1 w2 l1 l2 m
    refine ⟨?_, ?_, ?_⟩
    · intro hph
      unfold recalcUpdateMatch
      rw [if_pos hph]
      exact ⟨rfl, rfl, rfl⟩
    · intro hph
      unfold recalcUpdateMatch
      have : m.phase ≠ Phase.FINAL := by
        rw [hph]
        intro hc
        cases hc
      rw [if_neg this, if_pos hph]
      exact ⟨rfl, rfl, rfl⟩
    · intro h1 h2
      unfold recalcUpdateMatch
      rw [if_neg h1, if_neg h2]

/-- C6 (witness): the no-op branch on a soirée with no semis and the
rewrite branch on the bracket example soirée. -/
theorem c6_recalc_final_pfinal_witness :
    currentSoireeOpt exSeason 1 = some exSoiree1 ∧
      (sortedByOrder (exSoiree1.matchList.filter fun m => m.phase = Phase.DEMI)).length < 2 ∧
      recalcFinalAndPFinal exSeason 1 = exSeason ∧
      currentSoireeOpt exSeason2 4 = some exSoiree4 ∧
      2 ≤ (sortedByOrder (exSoiree4.matchList.filter fun m => m.phase = Phase.DEMI)).length ∧
      (recalcFinalAndPFinal exSeason2 4).soirees =
        exSeason2.soirees.map fun s =>
          if s.number = exSoiree4.number then
            { s with
                matchList := s.matchList.map
                  (recalcUpdateMatch
                    (normName ((sortedByOrder
                      (exSoiree4.matchList.filter fun m => m.phase = Phase.DEMI)).getD 0
                        default).winner)
                    (normName ((sortedByOrder
                      (exSoiree4.matchList.filter fun m => m.phase = Phase.DEMI)).getD 1
                        default).winner)
                    (demiLoserOf ((sortedByOrder
                      (exSoiree4.matchList.filter fun m => m.phase = Phase.DEMI)).getD 0 default))
                    (demiLoserOf ((sortedByOrder
                      (exSoiree4.matchList.filter fun m => m.phase = Phase.DEMI)).getD 1
                        default))) }
          else s :=
  ⟨by decide, by decide,
    (c6_recalc_final_pfinal exSeason 1 exSoiree1 (by decide)).1 (by decide),
    by decide, by decide,
    (c6_recalc_final_pfinal exSeason2 4 exSoiree4 (by decide)).2.1 (by decide)⟩

/-- C9 (counterexample): `setMatchWinner` accepts the winner "X" on a
match whose contestant `b` is empty, violating "a winner is set only
if both `a` and `b` are non-empty"; and the bracket recalculation
clears the stale final winner while leaving the checkout-bonus flag
set, violating "whenever the winner is cleared the bonus flag is
cleared as well". -/
theorem c9_counterexample :
    (setMatchWinnerUpdate "X" exM0).winner = "X" ∧ (setMatchWinnerUpdate "X" exM0).b = "" ∧
      (recalcUpdateMatch "ALICE" "DAN" "BOB" "CARA" exFinal).winner = "" ∧
      (recalcUpdateMatch "ALICE" "DAN" "BOB" "CARA" exFinal).checkout100 = true := by
  refine ⟨?_, ?_, ?_, ?_⟩ <;> decide

/-- C9 (amended): after `setMatchWinner`, a non-empty winner equals the
trimmed contestant `a` or `b`, that contestant being non-empty (the
other contestant may be empty), and an empty resulting winner forces the
checkout flag off; after bracket recalculation a FINAL or PFINAL match
with a non-empty winner has that winner equal to one of its new
contestants (the checkout flag is not touched by recalculation). -/
theorem c9_winner_validity :
    (∀ (m : CoreMatch) (w : String),
        ((setMatchWinnerUpdate w m).winner ≠ "" →
          ((setMatchWinnerUpdate w m).winner = normName m.a ∧ normName m.a ≠ "") ∨
            ((setMatchWinnerUpdate w m).winner = normName m.b ∧ normName m.b ≠ "")) ∧
          ((setMatchWinnerUpdate w m).winner = "" →
            (setMatchWinnerUpdate w m).checkout100 = false)) ∧
      ∀ (w1 w2 l1 l2 : String) (m : CoreMatch),
        (m.phase = Phase.FINAL ∨ m.phase = Phase.PFINAL) →
          (recalcUpdateMatch w1 w2 l1 l2 m).winner ≠ "" →
            (recalcUpdateMatch w1 w2 l1 l2 m).winner = (recalcUpdateMatch w1 w2 l1 l2 m).a ∨
              (recalcUpdateMatch w1 w2 l1 l2 m).winner = (recalcUpdateMatch w1 w2 l1 l2 m).b := by
  constructor
  · intro m w
    unfold setMatchWinnerUpdate
    by_cases hv : normName w ≠ "" ∧ (normName w = normName m.a ∨ normName w = normName m.b)
    · rw [if_pos hv]
      refine ⟨fun _ => ?_, fun h => absurd h hv.1⟩
      rcases hv.2 with h | h
      · exact Or.inl ⟨h, h ▸ hv.1⟩
      · exact Or.inr ⟨h, h ▸ hv.1⟩
    · rw [if_neg hv]
      exact ⟨fun h => absurd rfl h, fun _ => rfl⟩
  · intro w1 w2 l1 l2 m hph
    rcases hph with hph | hph
    · unfold recalcUpdateMatch
      rw [if_pos hph]
      dsimp only
      by_cases hk : m.winner ≠ "" ∧
          (m.winner = (if w1 ≠ "" ∧ w2 ≠ "" then w1 else "") ∨
            m.winner = (if w1 ≠ "" ∧ w2 ≠ "" then w2 else ""))
      · rw [if_pos hk]
        intro _
        exact hk.2
      · rw [if_neg hk]
        intro h
        exact absurd rfl h
    · have hnf : m.phase ≠ Phase.FINAL := by
        rw [hph]
        intro hc
        cases hc
      unfold recalcUpdateMatch
      rw [if_neg hnf, if_pos hph]
      dsimp only
      by_cases hk : m.winner ≠ "" ∧
          (m.winner = (if l1 ≠ "" ∧ l2 ≠ "" then l1 else "") ∨
            m.winner = (if l1 ≠ "" ∧ l2 ≠ "" then l2 else ""))
      · rw [if_pos hk]
        intro _
        exact hk.2
      · rw [if_neg hk]
        intro h
        exact absurd rfl h

/-- C9 (witness): the amended statement at concrete matches — a valid
winner assignment, an invalid one clearing winner and flag, and a kept
final winner matching a new contestant. -/
theorem c9_winner_validity_witness :
    ((setMatchWinnerUpdate "BOB" exM1).winner ≠ "" →
        ((setMatchWinnerUpdate "BOB" exM1).winner = normName exM1.a ∧ normName exM1.a ≠ "") ∨
          ((setMatchWinnerUpdate "BOB" exM1).winner = normName exM1.b ∧ normName exM1.b ≠ "")) ∧
      ((setMatchWinnerUpdate "ZOE" exM1).winner = "" →
        (setMatchWinnerUpdate "ZOE" exM1).checkout100 = false) ∧
      ((exFinal2.phase = Phase.FINAL ∨ exFinal2.phase = Phase.PFINAL) ∧
        (recalcUpdateMatch "ALICE" "DAN" "BOB" "CARA" exFinal2).winner ≠ "" ∧
        ((recalcUpdateMatch "ALICE" "DAN" "BOB" "CARA" exFinal2).winner =
            (recalcUpdateMatch "ALICE" "DAN" "BOB" "CARA" exFinal2).a ∨
          (recalcUpdateMatch "ALICE" "DAN" "BOB" "CARA" exFinal2).winner =
            (recalcUpdateMatch "ALICE" "DAN" "BOB" "CARA" exFinal2).b)) :=
  ⟨(c9_winner_validity.1 exM1 "BOB").1,
    (c9_winner_validity.1 exM1 "ZOE").2,
    ⟨Or.inl (by decide), by decide,
      c9_winner_validity.2 "ALICE" "DAN" "BOB" "CARA" exFinal2 (Or.inl (by decide))
        (by decide)⟩⟩

/-! ### The win-streak scan as an event fold -/

theorem applyResult_events (st : StreakState) (a b w : String) :
    applyResult st a b w = (resultEvents a b w).foldl applyEvent st := by
  simp only [applyResult, resultEvents]
  split_ifs <;> rfl

theorem rebuyStreakStep_events (st : StreakState) (r : RebuyMatch) :
    rebuyStreakStep st r = (rebuyEvents r).foldl applyEvent st := by
  simp only [rebuyStreakStep, rebuyEvents]
  split_ifs
  · exact applyResult_events st r.buyer r.b r.winner
  · exact applyResult_events st r.buyer r.a r.winner
  · rfl
  · rfl

theorem eventFold_flatMap {α : Type} (f : α → List (String × Bool)) (l : List α)
    (st : StreakState) :
    (l.flatMap f).foldl applyEvent st =
      l.foldl (fun acc x => (f x).foldl applyEvent acc) st := by
  induction l generalizing st with
  | nil => rfl
  | cons x l ih =>
      rw [List.flatMap_cons, List.foldl_append, List.foldl_cons, ih]

theorem streakSoiree_events (st : StreakState) (s : Soiree) :
    streakSoiree st s = (soireeEvents s).foldl applyEvent st := by
  unfold streakSoiree soireeEvents
  rw [List.foldl_append, eventFold_flatMap, eventFold_flatMap]
  have h1 : (fun (acc : StreakState) (m : CoreMatch) => applyResult acc m.a m.b m.winner) =
      fun acc m => (resultEvents m.a m.b m.winner).foldl applyEvent acc := by
    funext acc m
    exact applyResult_events acc m.a m.b m.winner
  have h2 : rebuyStreakStep = fun acc r => (rebuyEvents r).foldl applyEvent acc := by
    funext acc r
    exact rebuyStreakStep_events acc r
  rw [h1, h2]

theorem applyEvent_self (st : StreakState) (p : String) (bo : Bool) :
    (applyEvent st (p, bo)).streak p = (streakFoldStep (st.streak p, st.best p) bo).1 ∧
      (applyEvent st (p, bo)).best p = (streakFoldStep (st.streak p, st.best p) bo).2 := by
  cases bo <;> constructor <;> simp [applyEvent, setBest, fupd, streakFoldStep]

theorem applyEvent_other (st : StreakState) (e : String × Bool) (p : String) (h : e.1 ≠ p) :
    (applyEvent st e).streak p = st.streak p ∧ (applyEvent st e).best p = st.best p := by
  obtain ⟨q, bo⟩ := e
  have hpq : p ≠ q := fun hh => h hh.symm
  cases bo <;> constructor <;> simp [applyEvent, setBest, fupd, hpq]

theorem eventFold_proj (p : String) : ∀ (E : List (String × Bool)) (st : StreakState),
    ((E.foldl applyEvent st).streak p, (E.foldl applyEvent st).best p) =
      (playerOutcomes p E).foldl streakFoldStep (st.streak p, st.best p)
  | [], st => rfl
  | e :: E, st => by
      rw [List.foldl_cons]
      by_cases he : e.1 = p
      · have hout : playerOutcomes p (e :: E) = e.2 :: playerOutcomes p E := by
          simp [playerOutcomes, List.filterMap_cons, he]
        rw [hout, List.foldl_cons]
        have hself := applyEvent_self st p e.2
        have hee : (p, e.2) = e := by
          obtain ⟨q, bo⟩ := e
          simp at he
          rw [he]
        rw [hee] at hself
        rw [eventFold_proj p E (applyEvent st e), hself.1, hself.2]
      · have hout : playerOutcomes p (e :: E) = playerOutcomes p E := by
          simp [playerOutcomes, List.filterMap_cons, he]
        rw [hout]
        have hoth := applyEvent_other st e p he
        rw [eventFold_proj p E (applyEvent st e), hoth.1, hoth.2]

/-- C8: for every season whose soirée list is ordered by `number` (the
data-model invariant) and every roster player, `computeWinStreaks`
reports exactly the length of that player's longest run of consecutive
wins in the chronological event sequence — soirées by `number`, matches
by `order` then rebuys by `createdAt` inside a soirée, a decided loss
(including a lost rebuy) resetting the running streak and a rebuy won by
its buyer extending it against the effective opponent. -/
theorem c8_win_streaks (season : Season)
    (hsorted : List.Sorted (fun s t : Soiree => s.number ≤ t.number) season.soirees) :
    ∀ p ∈ season.players,
      (p, longestWinRun (playerOutcomes p (seasonEvents season))) ∈
        computeWinStreaks season := by
  intro p hp
  have hse : seasonEvents season = season.soirees.flatMap soireeEvents := by
    unfold seasonEvents
    rw [List.Sorted.insertionSort_eq hsorted]
  have hstreak : streakSoiree = fun st s => (soireeEvents s).foldl applyEvent st := by
    funext st s
    exact streakSoiree_events st s
  have hfold : season.soirees.foldl streakSoiree ⟨fun _ => 0, fun _ => 0⟩ =
      (season.soirees.flatMap soireeEvents).foldl applyEvent ⟨fun _ => 0, fun _ => 0⟩ := by
    rw [eventFold_flatMap, hstreak]
  have hbest : (season.soirees.foldl streakSoiree ⟨fun _ => 0, fun _ => 0⟩).best p =
      longestWinRun (playerOutcomes p (seasonEvents season)) := by
    rw [hse, hfold]
    have hproj := eventFold_proj p (season.soirees.flatMap soireeEvents)
      ⟨fun _ => 0, fun _ => 0⟩
    have h2 := congrArg Prod.snd hproj
    unfold longestWinRun
    simpa using h2
  unfold computeWinStreaks
  apply (List.perm_insertionSort streakRowLE _).mem_iff.mpr
  rw [← hbest]
  exact List.mem_map.mpr ⟨p, hp, rfl⟩

/-- C8 (witness): the example season's soirées are ordered by number and
CARA's reported streak is the longest win run of her outcome sequence. -/
theorem c8_win_streaks_witness :
    List.Sorted (fun s t : Soiree => s.number ≤ t.number) exSeason.soirees ∧
      "CARA" ∈ exSeason.players ∧
      ("CARA", longestWinRun (playerOutcomes "CARA" (seasonEvents exSeason))) ∈
        computeWinStreaks exSeason :=
  ⟨by decide, by decide,
    c8_win_streaks exSeason (by decide) "CARA" (by decide)⟩

end Darts

